import Mathlib

/-!
Verification development for `bitwebs/unichain-fetch` (`src/index.js`).

The repository exposes a peer-replicated versioned file archive ("bitdrive")
through a fetch-style request/response interface.  The single source file
`src/index.js` contains the dispatcher `bitFetch`, which parses the request,
resolves the archive, builds a canonical response-header baseline and routes
by path prefix and HTTP method.

This file is a shallow embedding of that dispatcher.  External collaborators
(the storage engine, `range-parser`, `resolve-bit-path`, `mime`) are modelled
as explicit data (an `Archive` state record and a `Collab` record of oracle
functions); the dispatcher itself is translated line by line from the source.
Effectful JS code becomes explicit state passing; `throw`/`try`/`catch`
becomes `Except String`, with the error message carried so that the top-level
catch can distinguish the not-writable error exactly as the source does.
-/

set_option maxHeartbeats 1000000
set_option maxRecDepth 4000

/-! ## String helpers (structural, kernel-reducible)

JS string primitives used by the source (`startsWith`, `endsWith`, `slice`,
`split`, `includes`) are modelled on the character list of a `String` so that
every definition reduces by `rfl`/`decide` on concrete inputs. -/

/-- JS `String.prototype.startsWith`. -/
def strStartsWith (s pre : String) : Bool :=
  List.isPrefixOf pre.data s.data

/-- JS `String.prototype.endsWith`. -/
def strEndsWith (s suf : String) : Bool :=
  List.isSuffixOf suf.data s.data

/-- JS `String.prototype.slice(n)` (drop the first `n` characters). -/
def strDrop (s : String) (n : Nat) : String :=
  String.mk (s.data.drop n)

/-- Helper for `strSplitChar`: split a character list on a separator. -/
def splitChars (c : Char) : List Char → List (List Char)
  | [] => [[]]
  | d :: rest =>
    let r := splitChars c rest
    if d = c then [] :: r
    else
      match r with
      | h :: t => (d :: h) :: t
      | [] => [[d]]

/-- JS `String.prototype.split(c)` for a one-character separator. -/
def strSplitChar (s : String) (c : Char) : List String :=
  (splitChars c s.data).map String.mk

/-- Helper for `strIncludes`: substring test on character lists. -/
def listIncludes (t : List Char) : List Char → Bool
  | [] => List.isPrefixOf t []
  | c :: rest => List.isPrefixOf t (c :: rest) || listIncludes t rest

/-- JS `String.prototype.includes` (substring test). -/
def strIncludes (s t : String) : Bool :=
  listIncludes t.data s.data

/-! ## Response headers

`responseHeaders` in the source is a plain JS object whose properties are
assigned imperatively; we model it as an insertion-ordered association list
with update-or-append assignment. -/

abbrev HeadersL := List (String × String)

/-- JS object property assignment on the response-headers object:
overwrite in place when the key is present, append otherwise. -/
def hset : HeadersL → String → String → HeadersL
  | [], k, v => [(k, v)]
  | q :: hs, k, v => if q.1 = k then (k, v) :: hs else q :: hset hs k v

/-- Read a response header by key. -/
def hget : HeadersL → String → Option String
  | [], _ => none
  | q :: hs, k => if q.1 = k then some q.2 else hget hs k

/-! ## Data model -/

/-- Model of a `stat` result from the external storage collaborator:
directory flag, byte size, the `mtime.toUTCString()` rendering, and the
optional per-file block counters served by `archive.stats` (absent when that
call would throw — the source swallows the failure). -/
structure Entry where
  isDir : Bool
  size : Nat
  mtimeUTC : String
  blockStats : Option (Nat × Nat)
deriving DecidableEq

/-- Model of a connected peer object as inspected by the source:
`remoteExtensions` may be missing (outer `none`), may lack `names`
(`some none`), or carry the advertised extension names. -/
structure Peer where
  remotePublicKey : String
  remoteAddress : String
  remoteType : String
  statsText : String
  remoteExtensions : Option (Option (List String))
deriving DecidableEq

/-- Model of the archive handle borrowed from the external storage
collaborator: hex key, metadata/content feed keys, current version,
writability, the tag map, the file tree, the lazily-registered extension
channels and the connected peers. -/
structure Archive where
  keyHex : String
  metadataKeyHex : String
  contentKeyHex : String
  version : Nat
  writable : Bool
  tags : List (String × Nat)
  entries : List (String × Entry)
  registeredExtensions : List String
  peers : List Peer
deriving DecidableEq

/-- Association lookup in the tag map. -/
def tagLookup : List (String × Nat) → String → Option Nat
  | [], _ => none
  | q :: rest, name => if q.1 = name then some q.2 else tagLookup rest name

/-- Create-or-overwrite in the tag map. -/
def tagSet : List (String × Nat) → String → Nat → List (String × Nat)
  | [], name, v => [(name, v)]
  | q :: rest, name, v => if q.1 = name then (name, v) :: rest else q :: tagSet rest name v

/-- Removal from the tag map (removes every binding of the name). -/
def tagRemove : List (String × Nat) → String → List (String × Nat)
  | [], _ => []
  | q :: rest, name => if q.1 = name then tagRemove rest name else q :: tagRemove rest name

/-- Association lookup in the file tree. -/
def entGet : List (String × Entry) → String → Option Entry
  | [], _ => none
  | q :: rest, p => if q.1 = p then some q.2 else entGet rest p

/-- Create-or-overwrite in the file tree. -/
def entSet : List (String × Entry) → String → Entry → List (String × Entry)
  | [], p, e => [(p, e)]
  | q :: rest, p, e => if q.1 = p then (p, e) :: rest else q :: entSet rest p e

/-- Removal from the file tree. -/
def entRemove : List (String × Entry) → String → List (String × Entry)
  | [], _ => []
  | q :: rest, p => if q.1 = p then entRemove rest p else q :: entRemove rest p

/-- Model of the external storage collaborator: `archive.getTaggedVersion`
throws when the tag is absent. -/
def Archive.getTaggedVersion (a : Archive) (name : String) : Except String Nat :=
  match tagLookup a.tags name with
  | some v => Except.ok v
  | none => Except.error ("No tag found for " ++ name)

/-- Model of the external storage collaborator: `archive.createTag` records
the tag and, being a write to the underlying feed, strictly increases the
archive version. -/
def Archive.createTag (a : Archive) (name : String) (v : Nat) : Archive :=
  { a with tags := tagSet a.tags name v, version := a.version + 1 }

/-- Model of the external storage collaborator: `archive.deleteTag` throws
when the tag is absent, otherwise removes it and strictly increases the
archive version. -/
def Archive.deleteTag (a : Archive) (name : String) : Except String Archive :=
  match tagLookup a.tags name with
  | some _ =>
    Except.ok { a with tags := tagRemove a.tags name, version := a.version + 1 }
  | none => Except.error ("No tag found for " ++ name)

/-- Model of the external storage collaborator: `archive.stat` throws when
the path has no entry. -/
def Archive.stat (a : Archive) (p : String) : Except String Entry :=
  match entGet a.entries p with
  | some e => Except.ok e
  | none => Except.error ("ENOENT: " ++ p)

/-- A fresh directory entry used by the `makeDir` model. -/
def dirEntry : Entry :=
  { isDir := true, size := 0, mtimeUTC := "", blockStats := none }

/-- Model of `make-dir` over the archive fs: creates the directory when it is
missing, which is a write and strictly increases the version; a no-op when it
already exists. -/
def Archive.makeDir (a : Archive) (p : String) : Archive :=
  match entGet a.entries p with
  | some _ => a
  | none => { a with entries := entSet a.entries p dirEntry, version := a.version + 1 }

/-- Model of the external storage collaborator: streaming the request body
into `archive.createWriteStream(path)` creates/overwrites the file entry and
strictly increases the version. -/
def Archive.writeFile (a : Archive) (p : String) (len : Nat) : Archive :=
  { a with
    entries := entSet a.entries p { isDir := false, size := len, mtimeUTC := "", blockStats := none },
    version := a.version + 1 }

/-- Model of the external storage collaborator: `archive.rmdir`. -/
def Archive.rmdir (a : Archive) (p : String) : Archive :=
  { a with entries := entRemove a.entries p, version := a.version + 1 }

/-- Model of the external storage collaborator: `archive.unlink`. -/
def Archive.unlink (a : Archive) (p : String) : Archive :=
  { a with entries := entRemove a.entries p, version := a.version + 1 }

/-- Model of the external storage collaborator: `archive.clear` only touches
the local cache, never the authoritative data or the version. -/
def Archive.clear (a : Archive) (_p : String) : Archive := a

/-- Model of the external storage collaborator: `archive.download` prefetches
into the local cache and changes no observable state. -/
def Archive.download (a : Archive) (_p : String) : Archive := a

/-- Model of the external storage collaborator: `archive.readdir` with
`includeStats`, reduced to the `(name, isDirectory)` pairs the source uses. -/
def Archive.readdir (a : Archive) (dir : String) : List (String × Bool) :=
  let dp := if strEndsWith dir "/" then dir else dir ++ "/"
  a.entries.filterMap fun pe =>
    if strStartsWith pe.1 dp && (pe.1 != dp) && !(strIncludes (strDrop pe.1 dp.length) "/") then
      some (strDrop pe.1 dp.length, pe.2.isDir)
    else none

/-- Source `getExtension`: returns an existing channel or registers a new one
(the registration is the observable state change). -/
def getExtension (a : Archive) (name : String) : Archive :=
  if a.registeredExtensions.contains name then a
  else { a with registeredExtensions := a.registeredExtensions ++ [name] }

/-- Source `getExtensionPeers`: peers whose `remoteExtensions.names` includes
the channel name. -/
def getExtensionPeers (a : Archive) (name : String) : List Peer :=
  a.peers.filter fun peer =>
    match peer.remoteExtensions with
    | none => false
    | some none => false
    | some (some names) => names.contains name

/-- Source `listExtensionNames`: the registered channel names. -/
def listExtensionNames (a : Archive) : List String :=
  a.registeredExtensions

/-- Source `formatPeers` result element. -/
structure FormattedPeer where
  remotePublicKey : String
  remoteType : String
  remoteAddress : String
  statsText : String
deriving DecidableEq

/-- Source `formatPeers`. -/
def formatPeers (peers : List Peer) : List FormattedPeer :=
  peers.map fun p =>
    { remotePublicKey := p.remotePublicKey
      remoteType := p.remoteType
      remoteAddress := p.remoteAddress
      statsText := p.statsText }

/-! ## External utility collaborators -/

/-- Result of the external `range-parser` package: `unparsed` stands for the
numeric error results `-1`/`-2` (whose `.length`/`.type` are undefined, hence
falsy in the source's guard), `parsed` for an array of ranges tagged with a
range type. -/
inductive RangeResult where
  | unparsed
  | parsed (rtype : String) (ranges : List (Nat × Nat))
deriving DecidableEq

/-- Oracle record for the external utility collaborators the dispatcher
calls: `range-parser`, `resolve-bit-path` (implicit index-document
resolution; throws on unresolvable paths) and `mime.getType`. -/
structure Collab where
  parseRange : Nat → String → RangeResult
  resolveBitPath : Archive → String → Except String (String × Entry)
  mimeGetType : String → Option String

/-! ## Constants from the source -/

def NOT_WRITABLE_ERROR : String := "Archive not writable"

def READABLE_ALLOW : List String := ["GET", "HEAD"]

def WRITABLE_ALLOW : List String := ["PUT", "POST", "DELETE"]

def ALL_ALLOW : List String := READABLE_ALLOW ++ WRITABLE_ALLOW

def SPECIAL_FOLDER : String := "/$/"

def TAGS_FOLDER_NAME : String := "tags/"

def TAGS_FOLDER : String := SPECIAL_FOLDER ++ TAGS_FOLDER_NAME

def EXTENSIONS_FOLDER_NAME : String := "extensions/"

def EXTENSIONS_FOLDER : String := SPECIAL_FOLDER ++ EXTENSIONS_FOLDER_NAME

/-! ## Requests and responses -/

/-- The parsed request as the dispatcher sees it after `parseBitURL` and
scheme validation: method, normalizable path, the `+version` component of the
URL, and the request headers the source reads.  `rangeHeader` models
`headers.get('Range') || headers.get('range')`. -/
structure Request where
  url : String
  method : String
  path : String
  urlVersion : Option String
  accept : Option String
  rangeHeader : Option String
  xClear : Option String
  xDownload : Option String
  noResolve : Bool
  body : String
deriving DecidableEq

/-- Response body: finite text, a file read stream (with the optional
inclusive `start`/`end` byte range passed to `createReadStream`), or one of
the two live event streams. -/
inductive BodyData where
  | text (s : String)
  | stream (path : String) (range : Option (Nat × Nat))
  | changeEvents (path : String)
  | extensionEvents
deriving DecidableEq

/-- The object returned by the dispatcher.  The source almost always places
the header object under the `headers` key; one branch (the non-streaming GET
on a specific extension channel, line 360) writes `header` instead, so both
fields are modelled. -/
structure Response where
  statusCode : Nat
  statusText : Option String
  headers : Option HeadersL
  header : Option HeadersL
  data : BodyData
deriving DecidableEq

/-- Response constructor used by every branch that spells `headers`
correctly. -/
def mkResp (code : Nat) (hs : HeadersL) (d : BodyData) : Response :=
  { statusCode := code, statusText := none, headers := some hs, header := none, data := d }

/-- Number of bytes a body carries when it is a ranged read stream
(`createReadStream` treats `start`/`end` as inclusive). -/
def rangeLength (r : Nat × Nat) : Nat := r.2 - r.1 + 1

/-! ## Rendering helpers from the source -/

/-- Source `getMimeType` (with `mime.getType` as oracle; JS `||` treats the
empty string as falsy). -/
def getMimeType (mimeGetType : String → Option String) (p : String) : String :=
  let mimeType :=
    match mimeGetType p with
    | some m => if m = "" then "text/plain; charset=utf-8" else m
    | none => "text/plain; charset=utf-8"
  if strStartsWith mimeType "text/" then mimeType ++ "; charset=utf-8" else mimeType

/-- Minimal JSON string escaping for the renderers. -/
def jsonEscape (s : String) : String :=
  String.join (s.data.map fun ch =>
    if ch = '"' then "\\\""
    else if ch = '\\' then "\\\\"
    else if ch = '\n' then "\\n"
    else String.singleton ch)

/-- `JSON.stringify(files, null, '\t')` for an array of strings. -/
def jsonStringifyList (xs : List String) : String :=
  if xs.isEmpty then "[]"
  else "[\n" ++ String.intercalate ",\n" (xs.map fun f => "\t\"" ++ jsonEscape f ++ "\"") ++ "\n]"

/-- `JSON.stringify(Object.fromEntries(tags), null, '\t')` for the tag map. -/
def jsonStringifyTags (tags : List (String × Nat)) : String :=
  if tags.isEmpty then "\x7b\x7d"
  else
    "\x7b\n" ++
      String.intercalate ",\n" (tags.map fun q => "\t\"" ++ jsonEscape q.1 ++ "\": " ++ toString q.2) ++
      "\n\x7d"

/-- `JSON.stringify(finalPeers, null, '\t')` for the formatted peer list. -/
def jsonStringifyPeers (ps : List FormattedPeer) : String :=
  if ps.isEmpty then "[]"
  else
    "[\n" ++
      String.intercalate ",\n" (ps.map fun p =>
        "\t\x7b\"remotePublicKey\": \"" ++ jsonEscape p.remotePublicKey ++
          "\", \"remoteType\": \"" ++ jsonEscape p.remoteType ++
          "\", \"remoteAddress\": \"" ++ jsonEscape p.remoteAddress ++
          "\", \"stats\": " ++ p.statsText ++ "\x7d") ++
      "\n]"

/-- Source `renderDirectory`. -/
def renderDirectory (url p : String) (files : List String) : String :=
  "<!DOCTYPE html>\n<title>" ++ url ++
    "</title>\n<meta name=\"viewport\" content=\"width=device-width, initial-scale=1\" />\n<h1>Index of " ++
    p ++ "</h1>\n<ul>\n  <li><a href=\"../\">../</a></li>" ++
    String.join (files.map fun file =>
      "\n  <li><a href=\"" ++ file ++ "\">./" ++ file ++ "</a></li>\n") ++
    "\n</ul>\n"

/-- Truthiness of `headers.get('Accept')` (null or empty string is falsy). -/
def acceptTruthy : Option String → Bool
  | none => false
  | some s => !s.isEmpty

/-- Source `renderFiles`: HTML when the `Accept` header is truthy and
includes `text/html`, JSON otherwise; sets `Content-Type` on the response
headers it is given. -/
def renderFiles (accept : Option String) (rh : HeadersL) (url p : String) (files : List String) :
    HeadersL × BodyData :=
  if acceptTruthy accept && strIncludes (accept.getD "") "text/html" then
    (hset rh "Content-Type" "text/html; charset=utf-8", BodyData.text (renderDirectory url p files))
  else
    (hset rh "Content-Type" "application/json; charset=utf-8", BodyData.text (jsonStringifyList files))

/-! ## The dispatcher -/

/-- Source `checkWritable`: throws the not-writable error when the global
`writable` option is off or the archive handle is read-only. -/
def checkWritable (writable : Bool) (archive : Archive) : Except String Unit :=
  if !writable then Except.error NOT_WRITABLE_ERROR
  else if !archive.writable then Except.error NOT_WRITABLE_ERROR
  else Except.ok ()

/-- Path normalization from the top of the dispatcher
(`if (!path) path = '/'; if (!path.startsWith('/')) path = '/' + path`). -/
def normalizePath (p : String) : String :=
  let p1 := if p = "" then "/" else p
  if strStartsWith p1 "/" then p1 else "/" ++ p1

/-- The quoted-decimal `ETag` rendering (source line 165). -/
def quoteVersion (v : Nat) : String := "\"" ++ toString v ++ "\""

/-- The header baseline set before the archive is resolved (source lines
103-106). -/
def baseHeaders0 : HeadersL :=
  [("Access-Control-Allow-Origin", "*"),
   ("Allow-CSP-From", "*"),
   ("Access-Control-Allow-Headers", "*")]

/-- The headers added once the archive is resolved and readied (source lines
157-165): canonical `Link`, `Allow` per current writability, quoted `ETag`. -/
def archiveHeaders (rh : HeadersL) (writable : Bool) (a : Archive) (p : String) : HeadersL :=
  let canonical := "bit://" ++ a.keyHex ++ p
  let rh := hset rh "Link" ("<" ++ canonical ++ ">; rel=\"canonical\"")
  let isWritable := writable && a.writable
  let allowHeaders := if isWritable then ALL_ALLOW else READABLE_ALLOW
  let rh := hset rh "Allow" (String.intercalate ", " allowHeaders)
  hset rh "ETag" (quoteVersion a.version)

/-- The top-level `catch` (source lines 623-633): 403 for the not-writable
error message, 500 otherwise; the error text becomes the body. -/
def catchResponse (rh : HeadersL) (e : String) : Response :=
  let isUnauthorized := e = NOT_WRITABLE_ERROR
  { statusCode := if isUnauthorized then 403 else 500
    statusText := some (if isUnauthorized then "Not Authorized" else "Server Error")
    headers := some rh
    header := none
    data := BodyData.text e }

abbrev HandlerResult := Except String (Response × Archive)

abbrev FileHandlerT := Collab → Bool → Request → Archive → HeadersL → HandlerResult

/-- File `PUT` (source lines 381-409): check writability, create the
directory (path ending in `/`) or the missing ancestors, stream the body into
the entry, refresh `ETag` to the post-operation version. -/
def filePut (w : Bool) (req : Request) (a : Archive) (rh : HeadersL) : HandlerResult :=
  match checkWritable w a with
  | Except.error e => Except.error e
  | Except.ok _ =>
    let a2 :=
      if strEndsWith req.path "/" then Archive.makeDir a req.path
      else
        let parentDir := String.intercalate "/" ((strSplitChar req.path '/').dropLast)
        let a1 := if parentDir ≠ "" then Archive.makeDir a parentDir else a
        Archive.writeFile a1 req.path req.body.length
    let rh := hset rh "ETag" (quoteVersion a2.version)
    Except.ok (mkResp 200 rh (BodyData.text ""), a2)

/-- File `DELETE` (source lines 410-437): `x-clear: cache` clears the local
cache without a writability check; otherwise check writability, stat the
path, remove the directory or file entry, refresh `ETag`. -/
def fileDelete (w : Bool) (req : Request) (a : Archive) (rh : HeadersL) : HandlerResult :=
  if req.xClear = some "cache" then
    Except.ok (mkResp 200 rh (BodyData.text ""), Archive.clear a req.path)
  else
    match checkWritable w a with
    | Except.error e => Except.error e
    | Except.ok _ =>
      match Archive.stat a req.path with
      | Except.error e => Except.error e
      | Except.ok st =>
        let a2 := if st.isDir then Archive.rmdir a req.path else Archive.unlink a req.path
        let rh := hset rh "ETag" (quoteVersion a2.version)
        Except.ok (mkResp 200 rh (BodyData.text ""), a2)

/-- File `GET`/`HEAD` after the well-known branches (source lines 531-615):
path resolution (with its 404 catch), `Content-Type`/`Last-Modified`,
directory listings, best-effort block counters, and byte-range handling. -/
def fileGetCore (c : Collab) (req : Request) (a : Archive) (rh : HeadersL) : Response × Archive :=
  let resolvedE :=
    if req.noResolve then
      match Archive.stat a req.path with
      | Except.ok st => Except.ok (req.path, st)
      | Except.error e => Except.error e
    else c.resolveBitPath a req.path
  match resolvedE with
  | Except.error e =>
    let rh := hset rh "Content-Type" "text/plain; charset=utf-8"
    (mkResp 404 rh (BodyData.text e), a)
  | Except.ok fpst =>
    let finalPath := fpst.1
    let st := fpst.2
    let rh := hset rh "Content-Type" (getMimeType c.mimeGetType finalPath)
    let rh := hset rh "Last-Modified" st.mtimeUTC
    let isRanged :=
      match req.rangeHeader with
      | some s => !s.isEmpty
      | none => false
    if st.isDir then
      let rh := hset rh "x-is-directory" "true"
      let names := (Archive.readdir a finalPath).map fun nd => if nd.2 then nd.1 ++ "/" else nd.1
      let files := if finalPath = "/" then "$/" :: names else names
      let rhdata := renderFiles req.accept rh req.url req.path files
      if req.method = "HEAD" then (mkResp 204 rhdata.1 (BodyData.text ""), a)
      else (mkResp 200 rhdata.1 rhdata.2, a)
    else
      let rh := hset rh "Accept-Ranges" "bytes"
      let rh :=
        match st.blockStats with
        | some bd => hset (hset rh "X-Blocks" (toString bd.1)) "X-Blocks-Downloaded" (toString bd.2)
        | none => rh
      let size := st.size
      let rh := hset rh "Content-Length" (toString size)
      let outcome :=
        if isRanged then
          match c.parseRange size (req.rangeHeader.getD "") with
          | RangeResult.parsed rtype (r :: _) =>
            if rtype = "bytes" then
              let rh := hset rh "Content-Length" (toString (rangeLength r))
              let rh := hset rh "Content-Range"
                ("bytes " ++ toString r.1 ++ "-" ++ toString r.2 ++ "/" ++ toString size)
              (206, rh, BodyData.stream finalPath (some r))
            else (200, rh, BodyData.stream finalPath none)
          | _ => (200, rh, BodyData.stream finalPath none)
        else (200, rh, BodyData.stream finalPath none)
      if req.method = "HEAD" then (mkResp 204 outcome.2.1 (BodyData.text ""), a)
      else (mkResp outcome.1 outcome.2.1 outcome.2.2, a)

/-- The fixed two-line discovery record (source lines 513 and 524). -/
def wellKnownEntry (a : Archive) : String :=
  "bit://" ++ a.keyHex ++ "\nttl=3600"

/-- File `GET`/`HEAD` (source lines 438-615): the exact-`Accept` change-event
stream, the `x-download: cache` prefetch, the two duplicate `.well-known`
branches as written, then `fileGetCore`. -/
def fileGetHead (c : Collab) (req : Request) (a : Archive) (rh : HeadersL) : Response × Archive :=
  if req.method = "GET" ∧ req.accept = some "text/event-stream" then
    let rh := hset rh "Content-Type" "text/event-stream"
    (mkResp 200 rh (BodyData.changeEvents req.path), a)
  else
    let a := if req.xDownload = some "cache" then Archive.download a req.path else a
    if req.path = "/.well-known/bit" then
      (mkResp 200 rh (BodyData.text (wellKnownEntry a)), a)
    else if req.path = "/.well-known/bit" then
      (mkResp 200 rh (BodyData.text (wellKnownEntry a)), a)
    else fileGetCore c req a rh

/-- Modelled from the spec: the same `GET`/`HEAD` handler with the two
duplicate `.well-known` branches collapsed into a single branch ("implement
as a single branch"), for the refinement claim. -/
def fileGetHeadSingle (c : Collab) (req : Request) (a : Archive) (rh : HeadersL) : Response × Archive :=
  if req.method = "GET" ∧ req.accept = some "text/event-stream" then
    let rh := hset rh "Content-Type" "text/event-stream"
    (mkResp 200 rh (BodyData.changeEvents req.path), a)
  else
    let a := if req.xDownload = some "cache" then Archive.download a req.path else a
    if req.path = "/.well-known/bit" then
      (mkResp 200 rh (BodyData.text (wellKnownEntry a)), a)
    else fileGetCore c req a rh

/-- The file-path method dispatch (source lines 381-622). -/
def fileHandler (c : Collab) (w : Bool) (req : Request) (a : Archive) (rh : HeadersL) : HandlerResult :=
  if req.method = "PUT" then filePut w req a rh
  else if req.method = "DELETE" then fileDelete w req a rh
  else if req.method = "GET" ∨ req.method = "HEAD" then Except.ok (fileGetHead c req a rh)
  else Except.ok (mkResp 405 rh (BodyData.text "Method Not Allowed"), a)

/-- The file-path method dispatch with the deduplicated `.well-known`
branch. -/
def fileHandlerSingle (c : Collab) (w : Bool) (req : Request) (a : Archive) (rh : HeadersL) : HandlerResult :=
  if req.method = "PUT" then filePut w req a rh
  else if req.method = "DELETE" then fileDelete w req a rh
  else if req.method = "GET" ∨ req.method = "HEAD" then Except.ok (fileGetHeadSingle c req a rh)
  else Except.ok (mkResp 405 rh (BodyData.text "Method Not Allowed"), a)

/-- The tag sub-namespace handler (source lines 188-258). -/
def tagsHandler (w : Bool) (req : Request) (a : Archive) (rh : HeadersL) : HandlerResult :=
  if req.method = "GET" then
    if req.path = TAGS_FOLDER then
      let rh := hset rh "x-is-directory" "true"
      let json := jsonStringifyTags a.tags
      let rh := hset rh "Content-Type" "application/json; charset=utf-8"
      Except.ok (mkResp 200 rh (BodyData.text json), a)
    else
      let tagName := strDrop req.path TAGS_FOLDER.length
      match Archive.getTaggedVersion a tagName with
      | Except.ok tagVersion => Except.ok (mkResp 200 rh (BodyData.text (toString tagVersion)), a)
      | Except.error _ => Except.ok (mkResp 404 rh (BodyData.text "Tag Not Found"), a)
  else if req.method = "DELETE" then
    match checkWritable w a with
    | Except.error e => Except.error e
    | Except.ok _ =>
      let tagName := strDrop req.path TAGS_FOLDER.length
      let target := if tagName ≠ "" then tagName else (req.urlVersion.getD "")
      match Archive.deleteTag a target with
      | Except.error e => Except.error e
      | Except.ok a2 =>
        let rh := hset rh "ETag" (quoteVersion a2.version)
        Except.ok (mkResp 200 rh (BodyData.text ""), a2)
  else if req.method = "PUT" then
    match checkWritable w a with
    | Except.error e => Except.error e
    | Except.ok _ =>
      let tagName := strDrop req.path TAGS_FOLDER.length
      let tagVersion := a.version
      let a2 := Archive.createTag a tagName tagVersion
      let rh := hset rh "Content-Type" "text/plain; charset=utf-8"
      let rh := hset rh "ETag" (quoteVersion a2.version)
      Except.ok (mkResp 200 rh (BodyData.text (toString tagVersion)), a2)
  else if req.method = "HEAD" then
    Except.ok (mkResp 204 rh (BodyData.text ""), a)
  else
    Except.ok (mkResp 405 rh (BodyData.text "Method Not Allowed"), a)

/-- The extension sub-namespace handler (source lines 259-371).  The
file-path handler is passed in because the source's `GET` branch on a
specific channel with an event-stream `Accept` produces no response and falls
through to the file-path handling after the special-folder block. -/
def extensionsHandler (fh : FileHandlerT) (c : Collab) (w : Bool) (req : Request) (a : Archive)
    (rh : HeadersL) : HandlerResult :=
  if req.path = EXTENSIONS_FOLDER then
    if req.method = "GET" then
      let accept := req.accept.getD ""
      if !(strIncludes accept "text/event-stream") then
        let rh := hset rh "x-is-directory" "true"
        let extensions := listExtensionNames a
        let rhdata := renderFiles req.accept rh req.url req.path extensions
        Except.ok (mkResp 204 rhdata.1 rhdata.2, a)
      else
        let rh := hset rh "Content-Type" "text/event-stream"
        Except.ok (mkResp 200 rh BodyData.extensionEvents, a)
    else
      Except.ok (mkResp 405 rh (BodyData.text "Method Not Allowed"), a)
  else
    let rest := strDrop req.path EXTENSIONS_FOLDER.length
    let pair :=
      if strIncludes rest "/" then
        let split := strSplitChar rest '/'
        (split.headD rest,
         match split with
         | _ :: y :: _ => if y ≠ "" then some y else none
         | _ => none)
      else (rest, (none : Option String))
    let extensionName := pair.1
    let extensionPeer := pair.2
    if req.method = "POST" then
      let a := getExtension a extensionName
      match extensionPeer with
      | some peerKey =>
        match (getExtensionPeers a extensionName).find? (fun p => p.remotePublicKey == peerKey) with
        | none => Except.ok (mkResp 404 rh (BodyData.text "Peer Not Found"), a)
        | some _ => Except.ok (mkResp 200 rh (BodyData.text ""), a)
      | none => Except.ok (mkResp 200 rh (BodyData.text ""), a)
    else if req.method = "GET" then
      let accept := req.accept.getD ""
      if !(strIncludes accept "text/event-stream") then
        let a := getExtension a extensionName
        let finalPeers := formatPeers (getExtensionPeers a extensionName)
        let json := jsonStringifyPeers finalPeers
        Except.ok
          ({ statusCode := 200, statusText := none, headers := none, header := some rh,
             data := BodyData.text json }, a)
      else fh c w req a rh
    else
      Except.ok (mkResp 405 rh (BodyData.text "Method Not Allowed"), a)

/-- The path router (source lines 167-622), parameterized by the file-path
handler so that the deduplicated variant can reuse it. -/
def dispatchWith (fh : FileHandlerT) (c : Collab) (w : Bool) (req : Request) (a : Archive)
    (rh : HeadersL) : HandlerResult :=
  if strStartsWith req.path SPECIAL_FOLDER then
    if req.path = SPECIAL_FOLDER then
      let files := [TAGS_FOLDER_NAME, EXTENSIONS_FOLDER_NAME]
      let rhdata := renderFiles req.accept rh req.url req.path files
      if req.method = "HEAD" then Except.ok (mkResp 204 rhdata.1 (BodyData.text ""), a)
      else Except.ok (mkResp 200 rhdata.1 rhdata.2, a)
    else if strStartsWith req.path TAGS_FOLDER then tagsHandler w req a rh
    else if strStartsWith req.path EXTENSIONS_FOLDER then extensionsHandler fh c w req a rh
    else Except.ok (mkResp 404 rh (BodyData.text "Not Found"), a)
  else fh c w req a rh

/-- The dispatcher body once the archive is resolved and readied (source
lines 110-111 and 157-633): path normalization, the resolved-archive header
baseline, routing, and the single top-level catch. -/
def bitFetchArchiveWith (fh : FileHandlerT) (c : Collab) (w : Bool) (req : Request) (a : Archive) :
    Response × Archive :=
  let p := normalizePath req.path
  let req2 := { req with path := p }
  let rh := archiveHeaders baseHeaders0 w a p
  match dispatchWith fh c w req2 a rh with
  | Except.ok r => r
  | Except.error e => (catchResponse rh e, a)

/-- The dispatcher body as written in the source. -/
def bitFetchArchive (c : Collab) (w : Bool) (req : Request) (a : Archive) : Response × Archive :=
  bitFetchArchiveWith fileHandler c w req a

/-- The dispatcher body with the duplicate `.well-known` branch removed. -/
def bitFetchArchiveSingle (c : Collab) (w : Bool) (req : Request) (a : Archive) : Response × Archive :=
  bitFetchArchiveWith fileHandlerSingle c w req a

/-- The full guarded dispatch (source lines 108-633).  `load` models the
effectful prelude (domain resolution, `loadArchive`, readiness wait,
checkout): an error there is an exception reaching the top-level catch, `ok
none` is `loadArchive` returning no handle (the 404 branch, lines 123-129),
and `ok (some a)` is a resolved and readied archive. -/
def bitFetch (c : Collab) (w : Bool) (req : Request) (load : Except String (Option Archive)) :
    Response × Option Archive :=
  match load with
  | Except.error e => (catchResponse baseHeaders0 e, none)
  | Except.ok none =>
    ({ statusCode := 404, statusText := none, headers := some baseHeaders0, header := none,
       data := BodyData.text "Unknown drive" }, none)
  | Except.ok (some a) =>
    let ra := bitFetchArchive c w req a
    (ra.1, some ra.2)

/-- The full guarded dispatch with the duplicate `.well-known` branch
removed. -/
def bitFetchSingle (c : Collab) (w : Bool) (req : Request) (load : Except String (Option Archive)) :
    Response × Option Archive :=
  match load with
  | Except.error e => (catchResponse baseHeaders0 e, none)
  | Except.ok none =>
    ({ statusCode := 404, statusText := none, headers := some baseHeaders0, header := none,
       data := BodyData.text "Unknown drive" }, none)
  | Except.ok (some a) =>
    let ra := bitFetchArchiveSingle c w req a
    (ra.1, some ra.2)

/-! ## The live event streams (source lines 276-302 and 441-492)

Both long-lived streams attach listeners in the `EventIterator` setup
callback and return a teardown closure.  We model the registrations as data:
which handler function is attached to which event of which emitter, with
Node's `removeListener` removing at most one matching registration. -/

/-- The two feeds the change/download/upload stream listens on. -/
inductive Feed where
  | metadata
  | content
deriving DecidableEq

/-- The four handler functions defined in the setup callback of the
change/download/upload stream (source lines 448-472). -/
inductive FileStreamHandler where
  | onDownloadMetadata
  | onUploadMetadata
  | onDownloadContent
  | onUploadContent
deriving DecidableEq

abbrev FileListeners := List (Feed × String × FileStreamHandler)

/-- The listener registrations performed when the change/download/upload
stream starts (source lines 476-479).  Line 479 is
`contentFeed.on('upload', onUploadMetadata)`: the metadata upload handler is
attached to the content feed's upload event. -/
def fileStreamAttach : FileListeners :=
  [(Feed.metadata, "download", FileStreamHandler.onDownloadMetadata),
   (Feed.metadata, "upload", FileStreamHandler.onUploadMetadata),
   (Feed.content, "download", FileStreamHandler.onDownloadContent),
   (Feed.content, "upload", FileStreamHandler.onUploadMetadata)]

/-- The teardown closure of the change/download/upload stream (source lines
480-486): destroys the watcher and calls `removeListener` with the four
handler names, including `onUploadContent` for the content feed's upload
event. -/
def fileStreamTeardown (ls : FileListeners) : FileListeners :=
  ((((ls.erase (Feed.metadata, "download", FileStreamHandler.onDownloadMetadata)).erase
      (Feed.metadata, "upload", FileStreamHandler.onUploadMetadata)).erase
      (Feed.content, "download", FileStreamHandler.onDownloadContent)).erase
      (Feed.content, "upload", FileStreamHandler.onUploadContent))

/-- The three handler functions of the extension event stream (source lines
277-293). -/
inductive ArchiveHandler where
  | onMessage
  | onPeerOpen
  | onPeerRemove
deriving DecidableEq

abbrev ArchiveListeners := List (String × ArchiveHandler)

/-- The listener registrations performed when the extension event stream
starts (source lines 294-296). -/
def extensionStreamAttach : ArchiveListeners :=
  [("extension-message", ArchiveHandler.onMessage),
   ("peer-open", ArchiveHandler.onPeerOpen),
   ("peer-remove", ArchiveHandler.onPeerRemove)]

/-- The teardown closure of the extension event stream (source lines
297-301). -/
def extensionStreamTeardown (ls : ArchiveListeners) : ArchiveListeners :=
  ((ls.erase ("extension-message", ArchiveHandler.onMessage)).erase
    ("peer-open", ArchiveHandler.onPeerOpen)).erase
    ("peer-remove", ArchiveHandler.onPeerRemove)

/-- One payload pushed into the change/download/upload stream for a block
event: the event name, the block index and the source feed key placed in the
JSON payload. -/
structure PushedEvent where
  event : String
  index : Nat
  source : String
deriving DecidableEq

/-- What each handler pushes when invoked with a block index (source lines
448-472).  All four handlers set `const event = 'download'`; the two
metadata handlers use the metadata feed's key as `source`, the two content
handlers the content feed's key. -/
def runFileStreamHandler (h : FileStreamHandler) (index : Nat) (metadataKey contentKey : String) :
    PushedEvent :=
  match h with
  | FileStreamHandler.onDownloadMetadata => { event := "download", index := index, source := metadataKey }
  | FileStreamHandler.onUploadMetadata => { event := "download", index := index, source := metadataKey }
  | FileStreamHandler.onDownloadContent => { event := "download", index := index, source := contentKey }
  | FileStreamHandler.onUploadContent => { event := "download", index := index, source := contentKey }

/-- A feed emitting an event runs every matching registered listener in
registration order. -/
def emitFeedEvent (ls : FileListeners) (f : Feed) (ev : String) (index : Nat)
    (metadataKey contentKey : String) : List PushedEvent :=
  (ls.filter fun l => l.1 == f && l.2.1 == ev).map fun l =>
    runFileStreamHandler l.2.2 index metadataKey contentKey

/-- The `startReader` framing (source lines 488-492): one JSON-encoded
payload per event. -/
def frameEvent (e : PushedEvent) : String :=
  "event:" ++ e.event ++ "\ndata:\x7b\"index\":" ++ toString e.index ++ ",\"source\":\"" ++
    e.source ++ "\"\x7d\n\n"

/-! ## Concrete instances used by the witnesses -/

/-- A concrete file entry: a 100-byte file. -/
def sampleFile : Entry :=
  { isDir := false, size := 100, mtimeUTC := "Thu, 01 Jan 1970 00:00:00 GMT", blockStats := none }

/-- A concrete root directory entry. -/
def sampleRoot : Entry :=
  { isDir := true, size := 0, mtimeUTC := "Thu, 01 Jan 1970 00:00:00 GMT", blockStats := none }

/-- A concrete writable archive at version 5 with one file and one tag. -/
def sampleArchive : Archive :=
  { keyHex := "ab12"
    metadataKeyHex := "m00"
    contentKeyHex := "c00"
    version := 5
    writable := true
    tags := [("old", 2)]
    entries := [("/", sampleRoot), ("/file.txt", sampleFile)]
    registeredExtensions := []
    peers := [] }

/-- A concrete collaborator oracle: `resolve-bit-path` resolves a path to its
own stat entry; `range-parser` understands exactly `bytes=0-49`; `mime`
knows no types. -/
def sampleCollab : Collab :=
  { parseRange := fun size s =>
      if s = "bytes=0-49" ∧ size = 100 then RangeResult.parsed "bytes" [(0, 49)]
      else RangeResult.unparsed
    resolveBitPath := fun a p =>
      match Archive.stat a p with
      | Except.ok st => Except.ok (p, st)
      | Except.error e => Except.error e
    mimeGetType := fun _ => none }

/-- Request template: a plain GET. -/
def mkGetReq (p : String) (acc ro : Option String) : Request :=
  { url := "bit://ab12" ++ p, method := "GET", path := p, urlVersion := none, accept := acc,
    rangeHeader := ro, xClear := none, xDownload := none, noResolve := false, body := "" }

/-- Request template: a write method with a body. -/
def mkWriteReq (m p b : String) : Request :=
  { url := "bit://ab12" ++ p, method := m, path := p, urlVersion := none, accept := none,
    rangeHeader := none, xClear := none, xDownload := none, noResolve := false, body := b }

/-- A response preserves the `ETag` computed into the header baseline `rh`
when, whenever it carries headers at all, their `ETag` agrees with `rh`. -/
def etagPreserved (rh : HeadersL) (r : Response) : Prop :=
  ∀ hs, r.headers = some hs → hget hs "ETag" = hget rh "ETag"

/-! ## Helper lemmas -/

theorem hget_hset_self (hs : HeadersL) (k v : String) : hget (hset hs k v) k = some v := by
  induction hs with
  | nil => simp [hset, hget]
  | cons q rest ih =>
    by_cases h : q.1 = k
    · simp [hset, hget, h]
    · simp [hset, hget, h, ih]

theorem hget_hset_ne (hs : HeadersL) (k k' v : String) (h : k' ≠ k) :
    hget (hset hs k' v) k = hget hs k := by
  induction hs with
  | nil => simp [hset, hget, h]
  | cons q rest ih =>
    by_cases hq : q.1 = k'
    · simp [hset, hget, hq, h]
    · by_cases hqk : q.1 = k
      · simp [hset, hget, hq, hqk, Ne.symm h]
      · simp [hset, hget, hq, hqk, ih]

theorem tagLookup_tagSet_self (l : List (String × Nat)) (n : String) (v : Nat) :
    tagLookup (tagSet l n v) n = some v := by
  induction l with
  | nil => simp [tagSet, tagLookup]
  | cons q rest ih =>
    by_cases h : q.1 = n
    · simp [tagSet, tagLookup, h]
    · simp [tagSet, tagLookup, h, ih]

theorem tagLookup_tagRemove_self (l : List (String × Nat)) (n : String) :
    tagLookup (tagRemove l n) n = none := by
  induction l with
  | nil => simp [tagRemove, tagLookup]
  | cons q rest ih =>
    by_cases h : q.1 = n
    · simp [tagRemove, h, ih]
    · simp [tagRemove, tagLookup, h, ih]

theorem normalizePath_slash (p : String) (h : strStartsWith p "/" = true) :
    normalizePath p = p := by
  have hne : p ≠ "" := by
    intro he
    subst he
    simp [strStartsWith, List.isPrefixOf] at h
  simp [normalizePath, hne, h]

theorem makeDir_version_ge (a : Archive) (p : String) :
    a.version ≤ (Archive.makeDir a p).version := by
  unfold Archive.makeDir
  cases entGet a.entries p <;> simp

theorem makeDir_writable (a : Archive) (p : String) :
    (Archive.makeDir a p).writable = a.writable := by
  unfold Archive.makeDir
  cases entGet a.entries p <;> simp

theorem etag_keep_ct (hs : HeadersL) (v : String) :
    hget (hset hs "Content-Type" v) "ETag" = hget hs "ETag" :=
  hget_hset_ne hs "ETag" "Content-Type" v (by decide)

theorem etag_keep_lm (hs : HeadersL) (v : String) :
    hget (hset hs "Last-Modified" v) "ETag" = hget hs "ETag" :=
  hget_hset_ne hs "ETag" "Last-Modified" v (by decide)

theorem etag_keep_dir (hs : HeadersL) (v : String) :
    hget (hset hs "x-is-directory" v) "ETag" = hget hs "ETag" :=
  hget_hset_ne hs "ETag" "x-is-directory" v (by decide)

theorem etag_keep_ar (hs : HeadersL) (v : String) :
    hget (hset hs "Accept-Ranges" v) "ETag" = hget hs "ETag" :=
  hget_hset_ne hs "ETag" "Accept-Ranges" v (by decide)

theorem etag_keep_xb (hs : HeadersL) (v : String) :
    hget (hset hs "X-Blocks" v) "ETag" = hget hs "ETag" :=
  hget_hset_ne hs "ETag" "X-Blocks" v (by decide)

theorem etag_keep_xbd (hs : HeadersL) (v : String) :
    hget (hset hs "X-Blocks-Downloaded" v) "ETag" = hget hs "ETag" :=
  hget_hset_ne hs "ETag" "X-Blocks-Downloaded" v (by decide)

theorem etag_keep_cl (hs : HeadersL) (v : String) :
    hget (hset hs "Content-Length" v) "ETag" = hget hs "ETag" :=
  hget_hset_ne hs "ETag" "Content-Length" v (by decide)

theorem etag_keep_cr (hs : HeadersL) (v : String) :
    hget (hset hs "Content-Range" v) "ETag" = hget hs "ETag" :=
  hget_hset_ne hs "ETag" "Content-Range" v (by decide)

theorem renderFiles_etag (acc : Option String) (rh : HeadersL) (u p : String) (fs : List String) :
    hget (renderFiles acc rh u p fs).1 "ETag" = hget rh "ETag" := by
  unfold renderFiles
  split <;> simp [etag_keep_ct]
theorem etagPreserved_mk (rh hs : HeadersL) (code : Nat) (d : BodyData)
    (h : hget hs "ETag" = hget rh "ETag") : etagPreserved rh (mkResp code hs d) := by
  intro hs2 hh
  simp only [mkResp, Option.some.injEq] at hh
  subst hh
  exact h

theorem etagPreserved_self (rh : HeadersL) (code : Nat) (d : BodyData) :
    etagPreserved rh (mkResp code rh d) :=
  etagPreserved_mk rh rh code d rfl

theorem etagPreserved_of_ok (rh hs : HeadersL) (code : Nat) (d : BodyData) (aX a2 : Archive)
    (r : Response) (h : (Except.ok (mkResp code hs d, aX) : HandlerResult) = Except.ok (r, a2))
    (hk : hget hs "ETag" = hget rh "ETag") : etagPreserved rh r := by
  injection h with h1
  have hr : mkResp code hs d = r := congrArg Prod.fst h1
  rw [← hr]
  exact etagPreserved_mk _ _ _ _ hk

theorem etagPreserved_of_ok_none (rh : HeadersL) (r r0 : Response) (aX a2 : Archive)
    (h : (Except.ok (r0, aX) : HandlerResult) = Except.ok (r, a2)) (hn : r0.headers = none) :
    etagPreserved rh r := by
  injection h with h1
  have hr : r0 = r := congrArg Prod.fst h1
  intro hs hh
  rw [← hr, hn] at hh
  exact Option.noConfusion hh

theorem fileGetCore_etag (c : Collab) (req : Request) (a : Archive) (rh : HeadersL) :
    etagPreserved rh (fileGetCore c req a rh).1 := by
  unfold fileGetCore
  repeat' (first | split | dsimp only)
  all_goals
    exact etagPreserved_mk _ _ _ _ (by
      simp [renderFiles_etag, etag_keep_ct, etag_keep_lm, etag_keep_dir, etag_keep_ar,
        etag_keep_xb, etag_keep_xbd, etag_keep_cl, etag_keep_cr])

theorem fileGetHead_etag (c : Collab) (req : Request) (a : Archive) (rh : HeadersL) :
    etagPreserved rh (fileGetHead c req a rh).1 := by
  unfold fileGetHead
  repeat' (first | split | dsimp only)
  all_goals
    first
    | exact fileGetCore_etag _ _ _ _
    | exact etagPreserved_self _ _ _
    | exact etagPreserved_mk _ _ _ _ (by simp [etag_keep_ct])

theorem fileHandler_etag_get (c : Collab) (w : Bool) (req : Request) (a : Archive) (rh : HeadersL)
    (hm : req.method = "GET") (r : Response) (a2 : Archive)
    (h : fileHandler c w req a rh = Except.ok (r, a2)) : etagPreserved rh r := by
  unfold fileHandler at h
  rw [hm] at h
  rw [if_neg (by decide), if_neg (by decide), if_pos (by decide)] at h
  injection h with h1
  have hr : (fileGetHead c req a rh).1 = r := congrArg Prod.fst h1
  rw [← hr]
  exact fileGetHead_etag _ _ _ _

theorem tagsHandler_etag_get (w : Bool) (req : Request) (a : Archive) (rh : HeadersL)
    (hm : req.method = "GET") (r : Response) (a2 : Archive)
    (h : tagsHandler w req a rh = Except.ok (r, a2)) : etagPreserved rh r := by
  unfold tagsHandler at h
  rw [hm] at h
  rw [if_pos (by decide)] at h
  split at h
  · exact etagPreserved_of_ok rh _ _ _ _ _ r h (by simp [etag_keep_ct, etag_keep_dir])
  · dsimp only at h
    split at h
    · exact etagPreserved_of_ok rh _ _ _ _ _ r h rfl
    · exact etagPreserved_of_ok rh _ _ _ _ _ r h rfl

theorem extensionsHandler_etag_get (c : Collab) (w : Bool) (req : Request) (a : Archive)
    (rh : HeadersL) (hm : req.method = "GET") (r : Response) (a2 : Archive)
    (h : extensionsHandler fileHandler c w req a rh = Except.ok (r, a2)) : etagPreserved rh r := by
  unfold extensionsHandler at h
  rw [hm] at h
  split at h
  · rw [if_pos (by decide)] at h
    dsimp only at h
    split at h
    · exact etagPreserved_of_ok rh _ _ _ _ _ r h (by simp [renderFiles_etag, etag_keep_dir])
    · exact etagPreserved_of_ok rh _ _ _ _ _ r h (by simp [etag_keep_ct])
  · rw [if_neg (by decide), if_pos (by decide)] at h
    dsimp only at h
    split at h
    · exact etagPreserved_of_ok_none rh r _ _ _ h rfl
    · exact fileHandler_etag_get c w req a rh hm r a2 h

theorem dispatch_etag_get (c : Collab) (w : Bool) (req : Request) (a : Archive) (rh : HeadersL)
    (hm : req.method = "GET") (r : Response) (a2 : Archive)
    (h : dispatchWith fileHandler c w req a rh = Except.ok (r, a2)) : etagPreserved rh r := by
  unfold dispatchWith at h
  split at h
  · split at h
    · rw [hm] at h
      rw [if_neg (by decide)] at h
      exact etagPreserved_of_ok rh _ _ _ _ _ r h (by simp [renderFiles_etag])
    · split at h
      · exact tagsHandler_etag_get w req a rh hm r a2 h
      · split at h
        · exact extensionsHandler_etag_get c w req a rh hm r a2 h
        · exact etagPreserved_of_ok rh _ _ _ _ _ r h rfl
  · exact fileHandler_etag_get c w req a rh hm r a2 h

theorem checkWritable_ok (w : Bool) (a : Archive) (hw : w = true) (haw : a.writable = true) :
    checkWritable w a = Except.ok () := by
  unfold checkWritable
  rw [hw, haw]
  simp

theorem checkWritable_err (w : Bool) (a : Archive) (hnw : w = false ∨ a.writable = false) :
    checkWritable w a = Except.error NOT_WRITABLE_ERROR := by
  unfold checkWritable
  rcases hnw with h | h
  · rw [h]
    simp
  · rw [h]
    cases w <;> simp

theorem filePut_file (w : Bool) (req : Request) (a : Archive) (rh : HeadersL)
    (hw : w = true) (haw : a.writable = true) (hfile : strEndsWith req.path "/" = false) :
    ∃ a2, filePut w req a rh
        = Except.ok (mkResp 200 (hset rh "ETag" (quoteVersion a2.version)) (BodyData.text ""), a2)
      ∧ a.version < a2.version := by
  unfold filePut
  rw [checkWritable_ok w a hw haw, hfile]
  refine ⟨Archive.writeFile
      (if String.intercalate "/" ((strSplitChar req.path '/').dropLast) ≠ ""
        then Archive.makeDir a (String.intercalate "/" ((strSplitChar req.path '/').dropLast)) else a)
      req.path req.body.length, ?_, ?_⟩
  · rfl
  · by_cases hpd : String.intercalate "/" ((strSplitChar req.path '/').dropLast) ≠ ""
    · rw [if_pos hpd]
      simp only [Archive.writeFile]
      have := makeDir_version_ge a (String.intercalate "/" ((strSplitChar req.path '/').dropLast))
      omega
    · rw [if_neg hpd]
      simp only [Archive.writeFile]
      omega

theorem fileDelete_plain (w : Bool) (req : Request) (a : Archive) (rh : HeadersL)
    (hw : w = true) (haw : a.writable = true) (hxc : ¬ req.xClear = some "cache")
    (st : Entry) (hstat : Archive.stat a req.path = Except.ok st) :
    ∃ a2, fileDelete w req a rh
        = Except.ok (mkResp 200 (hset rh "ETag" (quoteVersion a2.version)) (BodyData.text ""), a2)
      ∧ a.version < a2.version := by
  unfold fileDelete
  rw [if_neg hxc, checkWritable_ok w a hw haw, hstat]
  refine ⟨if st.isDir then Archive.rmdir a req.path else Archive.unlink a req.path, rfl, ?_⟩
  cases hd : st.isDir
  · simp [Archive.unlink]
  · simp [Archive.rmdir]

theorem tagsPut_result (w : Bool) (req : Request) (a : Archive) (rh : HeadersL)
    (hm : req.method = "PUT") (hw : w = true) (haw : a.writable = true) :
    tagsHandler w req a rh
      = Except.ok (mkResp 200
          (hset (hset rh "Content-Type" "text/plain; charset=utf-8") "ETag"
            (quoteVersion (a.version + 1)))
          (BodyData.text (toString a.version)),
          Archive.createTag a (strDrop req.path TAGS_FOLDER.length) a.version) := by
  unfold tagsHandler
  rw [hm]
  rw [if_neg (by decide), if_neg (by decide), if_pos (by decide)]
  rw [checkWritable_ok w a hw haw]
  rfl

theorem tagsDelete_result (w : Bool) (req : Request) (a : Archive) (rh : HeadersL)
    (hm : req.method = "DELETE") (hw : w = true) (haw : a.writable = true)
    (T : String) (hT : strDrop req.path TAGS_FOLDER.length = T) (hTne : T ≠ "")
    (v : Nat) (hl : tagLookup a.tags T = some v) :
    tagsHandler w req a rh
      = Except.ok (mkResp 200 (hset rh "ETag" (quoteVersion (a.version + 1))) (BodyData.text ""),
          { a with tags := tagRemove a.tags T, version := a.version + 1 }) := by
  unfold tagsHandler
  rw [hm]
  rw [if_neg (by decide), if_pos (by decide)]
  rw [checkWritable_ok w a hw haw]
  dsimp only
  rw [hT, if_pos hTne]
  unfold Archive.deleteTag
  rw [hl]

theorem tagsGet_found (w : Bool) (req : Request) (a : Archive) (rh : HeadersL)
    (hm : req.method = "GET") (hroot : ¬ req.path = TAGS_FOLDER)
    (T : String) (hT : strDrop req.path TAGS_FOLDER.length = T)
    (v : Nat) (hl : tagLookup a.tags T = some v) :
    tagsHandler w req a rh = Except.ok (mkResp 200 rh (BodyData.text (toString v)), a) := by
  unfold tagsHandler
  rw [hm]
  rw [if_pos (by decide), if_neg hroot]
  dsimp only
  rw [hT]
  unfold Archive.getTaggedVersion
  rw [hl]

theorem tagsGet_missing (w : Bool) (req : Request) (a : Archive) (rh : HeadersL)
    (hm : req.method = "GET") (hroot : ¬ req.path = TAGS_FOLDER)
    (T : String) (hT : strDrop req.path TAGS_FOLDER.length = T)
    (hl : tagLookup a.tags T = none) :
    tagsHandler w req a rh = Except.ok (mkResp 404 rh (BodyData.text "Tag Not Found"), a) := by
  unfold tagsHandler
  rw [hm]
  rw [if_pos (by decide), if_neg hroot]
  dsimp only
  rw [hT]
  unfold Archive.getTaggedVersion
  rw [hl]

theorem dispatch_tags (fh : FileHandlerT) (c : Collab) (w : Bool) (req : Request) (a : Archive)
    (rh : HeadersL)
    (hsp : strStartsWith req.path SPECIAL_FOLDER = true)
    (hroot : ¬ req.path = SPECIAL_FOLDER)
    (htags : strStartsWith req.path TAGS_FOLDER = true) :
    dispatchWith fh c w req a rh = tagsHandler w req a rh := by
  unfold dispatchWith
  rw [if_pos hsp, if_neg hroot, if_pos htags]

theorem dispatch_file (fh : FileHandlerT) (c : Collab) (w : Bool) (req : Request) (a : Archive)
    (rh : HeadersL) (hsp : strStartsWith req.path SPECIAL_FOLDER = false) :
    dispatchWith fh c w req a rh = fh c w req a rh := by
  unfold dispatchWith
  rw [if_neg (by simp [hsp])]

theorem bitFetchArchive_eq (c : Collab) (w : Bool) (req : Request) (a : Archive)
    (hslash : strStartsWith req.path "/" = true) :
    bitFetchArchive c w req a =
      (match dispatchWith fileHandler c w req a (archiveHeaders baseHeaders0 w a req.path) with
       | Except.ok r => r
       | Except.error e => (catchResponse (archiveHeaders baseHeaders0 w a req.path) e, a)) := by
  unfold bitFetchArchive bitFetchArchiveWith
  rw [normalizePath_slash req.path hslash]

theorem archiveHeaders_etag (w : Bool) (a : Archive) (p : String) :
    hget (archiveHeaders baseHeaders0 w a p) "ETag" = some (quoteVersion a.version) := by
  unfold archiveHeaders
  exact hget_hset_self _ _ _

theorem bitFetchArchive_get_etag (c : Collab) (w : Bool) (req : Request) (a : Archive)
    (hm : req.method = "GET") (hs : HeadersL)
    (hh : (bitFetchArchive c w req a).1.headers = some hs) :
    hget hs "ETag" = some (quoteVersion a.version) := by
  unfold bitFetchArchive bitFetchArchiveWith at hh
  dsimp only at hh
  cases hdi : dispatchWith fileHandler c w { req with path := normalizePath req.path } a
      (archiveHeaders baseHeaders0 w a (normalizePath req.path)) with
  | error e =>
    rw [hdi] at hh
    dsimp only [catchResponse] at hh
    simp only [Option.some.injEq] at hh
    subst hh
    exact archiveHeaders_etag w a _
  | ok ra =>
    rw [hdi] at hh
    dsimp only at hh
    have hp := dispatch_etag_get c w { req with path := normalizePath req.path } a
      (archiveHeaders baseHeaders0 w a (normalizePath req.path)) hm ra.1 ra.2 (by rw [hdi])
    have h2 := hp hs hh
    rw [h2]
    exact archiveHeaders_etag w a _

/-- C1 counterexample: the non-streaming GET on a specific extension channel
(`/$/extensions/example`) is successfully handled (status 200) but the branch
(source line 360) writes the header object under the misspelled key `header`,
so the response carries no `headers` field at all — in particular no `ETag`
header equal to the quoted version, refuting the claim as stated for this
GET. -/
theorem C1_counterexample :
    (bitFetchArchive sampleCollab false (mkGetReq "/$/extensions/example" none none)
        sampleArchive).1.statusCode = 200
  ∧ (bitFetchArchive sampleCollab false (mkGetReq "/$/extensions/example" none none)
        sampleArchive).1.headers = none := by
  constructor <;> rfl

/-- C1 (amended): every GET that carries a `headers` field (that is, every
GET except the non-streaming extension-channel GET, which loses its headers
to the `header` typo) answers with `ETag` equal to the quoted resolved
version; and each successful mutating operation (file PUT, plain file
DELETE, tag PUT, tag DELETE) recomputes the response `ETag` from the
post-operation archive version, which is strictly greater than the
pre-operation version, so the next GET's `ETag` strictly increases. -/
theorem C1_etag_amended :
    (∀ (c : Collab) (w : Bool) (req : Request) (a : Archive) (hs : HeadersL),
      req.method = "GET" →
      (bitFetchArchive c w req a).1.headers = some hs →
      hget hs "ETag" = some (quoteVersion a.version))
  ∧ (∀ (c : Collab) (req : Request) (a : Archive),
      req.method = "PUT" →
      strStartsWith req.path "/" = true →
      strStartsWith req.path SPECIAL_FOLDER = false →
      strEndsWith req.path "/" = false →
      a.writable = true →
      (bitFetchArchive c true req a).1.statusCode = 200
        ∧ a.version < (bitFetchArchive c true req a).2.version
        ∧ (∀ hs, (bitFetchArchive c true req a).1.headers = some hs →
            hget hs "ETag" = some (quoteVersion ((bitFetchArchive c true req a).2.version))))
  ∧ (∀ (c : Collab) (req : Request) (a : Archive) (st : Entry),
      req.method = "DELETE" →
      strStartsWith req.path "/" = true →
      strStartsWith req.path SPECIAL_FOLDER = false →
      ¬ req.xClear = some "cache" →
      a.writable = true →
      Archive.stat a req.path = Except.ok st →
      (bitFetchArchive c true req a).1.statusCode = 200
        ∧ a.version < (bitFetchArchive c true req a).2.version
        ∧ (∀ hs, (bitFetchArchive c true req a).1.headers = some hs →
            hget hs "ETag" = some (quoteVersion ((bitFetchArchive c true req a).2.version))))
  ∧ (∀ (c : Collab) (req : Request) (a : Archive),
      req.method = "PUT" →
      strStartsWith req.path "/" = true →
      strStartsWith req.path SPECIAL_FOLDER = true →
      ¬ req.path = SPECIAL_FOLDER →
      strStartsWith req.path TAGS_FOLDER = true →
      a.writable = true →
      (bitFetchArchive c true req a).1.statusCode = 200
        ∧ a.version < (bitFetchArchive c true req a).2.version
        ∧ (bitFetchArchive c true req a).1.data = BodyData.text (toString a.version)
        ∧ (∀ hs, (bitFetchArchive c true req a).1.headers = some hs →
            hget hs "ETag" = some (quoteVersion ((bitFetchArchive c true req a).2.version))))
  ∧ (∀ (c : Collab) (req : Request) (a : Archive) (T : String) (v : Nat),
      req.method = "DELETE" →
      strStartsWith req.path "/" = true →
      strStartsWith req.path SPECIAL_FOLDER = true →
      ¬ req.path = SPECIAL_FOLDER →
      strStartsWith req.path TAGS_FOLDER = true →
      strDrop req.path TAGS_FOLDER.length = T →
      ¬ T = "" →
      tagLookup a.tags T = some v →
      a.writable = true →
      (bitFetchArchive c true req a).1.statusCode = 200
        ∧ a.version < (bitFetchArchive c true req a).2.version
        ∧ (∀ hs, (bitFetchArchive c true req a).1.headers = some hs →
            hget hs "ETag" = some (quoteVersion ((bitFetchArchive c true req a).2.version)))) := by
  refine ⟨?_, ?_, ?_, ?_, ?_⟩
  · intro c w req a hs hm hh
    exact bitFetchArchive_get_etag c w req a hm hs hh
  · intro c req a hm hslash hsp hfile haw
    obtain ⟨a2, hfp, hlt⟩ :=
      filePut_file true req a (archiveHeaders baseHeaders0 true a req.path) rfl haw hfile
    have hbfa : bitFetchArchive c true req a
        = (mkResp 200 (hset (archiveHeaders baseHeaders0 true a req.path) "ETag"
            (quoteVersion a2.version)) (BodyData.text ""), a2) := by
      rw [bitFetchArchive_eq c true req a hslash,
        dispatch_file fileHandler c true req a _ hsp]
      unfold fileHandler
      rw [if_pos hm, hfp]
    rw [hbfa]
    exact ⟨rfl, hlt, fun hs hh => by
      simp only [mkResp, Option.some.injEq] at hh
      subst hh
      exact hget_hset_self _ _ _⟩
  · intro c req a st hm hslash hsp hxc haw hstat
    obtain ⟨a2, hfd, hlt⟩ :=
      fileDelete_plain true req a (archiveHeaders baseHeaders0 true a req.path) rfl haw hxc st hstat
    have hbfa : bitFetchArchive c true req a
        = (mkResp 200 (hset (archiveHeaders baseHeaders0 true a req.path) "ETag"
            (quoteVersion a2.version)) (BodyData.text ""), a2) := by
      rw [bitFetchArchive_eq c true req a hslash,
        dispatch_file fileHandler c true req a _ hsp]
      unfold fileHandler
      rw [if_neg (by simp [hm]), if_pos hm, hfd]
    rw [hbfa]
    exact ⟨rfl, hlt, fun hs hh => by
      simp only [mkResp, Option.some.injEq] at hh
      subst hh
      exact hget_hset_self _ _ _⟩
  · intro c req a hm hslash hsp hroot htags haw
    have hbfa : bitFetchArchive c true req a
        = (mkResp 200
            (hset (hset (archiveHeaders baseHeaders0 true a req.path) "Content-Type"
              "text/plain; charset=utf-8") "ETag" (quoteVersion (a.version + 1)))
            (BodyData.text (toString a.version)),
            Archive.createTag a (strDrop req.path TAGS_FOLDER.length) a.version) := by
      rw [bitFetchArchive_eq c true req a hslash,
        dispatch_tags fileHandler c true req a _ hsp hroot htags,
        tagsPut_result true req a _ hm rfl haw]
    rw [hbfa]
    refine ⟨rfl, by simp [Archive.createTag], rfl, ?_⟩
    intro hs hh
    simp only [mkResp, Option.some.injEq] at hh
    subst hh
    exact hget_hset_self _ _ _
  · intro c req a T v hm hslash hsp hroot htags hT hTne hl haw
    have hbfa : bitFetchArchive c true req a
        = (mkResp 200 (hset (archiveHeaders baseHeaders0 true a req.path) "ETag"
            (quoteVersion (a.version + 1))) (BodyData.text ""),
            { a with tags := tagRemove a.tags T, version := a.version + 1 }) := by
      rw [bitFetchArchive_eq c true req a hslash,
        dispatch_tags fileHandler c true req a _ hsp hroot htags,
        tagsDelete_result true req a _ hm rfl haw T hT hTne v hl]
    rw [hbfa]
    refine ⟨rfl, by simp, ?_⟩
    intro hs hh
    simp only [mkResp, Option.some.injEq] at hh
    subst hh
    exact hget_hset_self _ _ _

/-- C1 witness: the amended theorem applied to a concrete tag PUT
(`PUT /$/tags/v1` on the writable sample archive at version 5) and to a
concrete file PUT (`PUT /new.txt`). -/
theorem C1_etag_witness :
    ((bitFetchArchive sampleCollab true (mkWriteReq "PUT" "/$/tags/v1" "") sampleArchive).1.statusCode = 200
      ∧ sampleArchive.version <
          (bitFetchArchive sampleCollab true (mkWriteReq "PUT" "/$/tags/v1" "") sampleArchive).2.version)
  ∧ ((bitFetchArchive sampleCollab true (mkWriteReq "PUT" "/new.txt" "hello") sampleArchive).1.statusCode = 200
      ∧ sampleArchive.version <
          (bitFetchArchive sampleCollab true (mkWriteReq "PUT" "/new.txt" "hello") sampleArchive).2.version) := by
  constructor
  · have h := C1_etag_amended.2.2.2.1 sampleCollab (mkWriteReq "PUT" "/$/tags/v1" "")
      sampleArchive rfl (by decide) (by decide) (by decide) (by decide) rfl
    exact ⟨h.1, h.2.1⟩
  · have h := C1_etag_amended.2.1 sampleCollab (mkWriteReq "PUT" "/new.txt" "hello")
      sampleArchive rfl (by decide) (by decide) (by decide) rfl
    exact ⟨h.1, h.2.1⟩
theorem bitFetch_get_core (c : Collab) (w : Bool) (req : Request) (a : Archive)
    (hm : req.method = "GET")
    (hslash : strStartsWith req.path "/" = true)
    (hsp : strStartsWith req.path SPECIAL_FOLDER = false)
    (hacc : ¬ req.accept = some "text/event-stream")
    (hxd : ¬ req.xDownload = some "cache")
    (hwk : ¬ req.path = "/.well-known/bit") :
    bitFetchArchive c w req a = fileGetCore c req a (archiveHeaders baseHeaders0 w a req.path) := by
  rw [bitFetchArchive_eq c w req a hslash, dispatch_file fileHandler c w req a _ hsp]
  unfold fileHandler
  rw [if_neg (by simp [hm]), if_neg (by simp [hm]), if_pos (Or.inl hm)]
  unfold fileGetHead
  rw [if_neg (fun hand => hacc hand.2)]
  dsimp only
  rw [if_neg hxd, if_neg hwk, if_neg hwk]

theorem fileGetCore_range_bytes (c : Collab) (req : Request) (a : Archive) (rh : HeadersL)
    (fp : String) (st : Entry) (s e : Nat) (rest : List (Nat × Nat)) (rv : String)
    (hnr : req.noResolve = false)
    (hres : c.resolveBitPath a req.path = Except.ok (fp, st))
    (hfile : st.isDir = false)
    (hm : req.method = "GET")
    (hro : req.rangeHeader = some rv) (hrv : rv.isEmpty = false)
    (hparse : c.parseRange st.size rv = RangeResult.parsed "bytes" ((s, e) :: rest)) :
    (fileGetCore c req a rh).1.statusCode = 206
  ∧ hget ((fileGetCore c req a rh).1.headers.getD []) "Content-Range"
      = some ("bytes " ++ toString s ++ "-" ++ toString e ++ "/" ++ toString st.size)
  ∧ hget ((fileGetCore c req a rh).1.headers.getD []) "Content-Length"
      = some (toString (e - s + 1))
  ∧ (fileGetCore c req a rh).1.data = BodyData.stream fp (some (s, e)) := by
  have hcore : fileGetCore c req a rh =
      (mkResp 206
        (hset (hset (hset
            (match st.blockStats with
             | some bd => hset (hset (hset (hset (hset rh "Content-Type"
                  (getMimeType c.mimeGetType fp)) "Last-Modified" st.mtimeUTC)
                  "Accept-Ranges" "bytes") "X-Blocks" (toString bd.1))
                  "X-Blocks-Downloaded" (toString bd.2)
             | none => hset (hset (hset rh "Content-Type"
                  (getMimeType c.mimeGetType fp)) "Last-Modified" st.mtimeUTC)
                  "Accept-Ranges" "bytes")
            "Content-Length" (toString st.size))
            "Content-Length" (toString (rangeLength (s, e))))
            "Content-Range" ("bytes " ++ toString s ++ "-" ++ toString e ++ "/" ++ toString st.size))
        (BodyData.stream fp (some (s, e))), a) := by
    unfold fileGetCore
    rw [if_neg (by simp [hnr]), hres]
    try dsimp only
    rw [if_neg (by simp [hfile]), hro]
    try dsimp only
    rw [hrv]
    try dsimp only
    rw [if_neg (by simp [hm])]
    rw [if_pos (by decide)]
    rw [Option.getD_some]
    rw [hparse]
    try dsimp only
    rw [if_pos rfl]
  rw [hcore]
  dsimp only [mkResp, Option.getD]
  refine ⟨rfl, ?_, ?_, rfl⟩
  · exact hget_hset_self _ _ _
  · rw [hget_hset_ne _ _ _ _ (by decide)]
    exact hget_hset_self _ _ _

theorem fileGetCore_norange (c : Collab) (req : Request) (a : Archive) (rh : HeadersL)
    (fp : String) (st : Entry)
    (hnr : req.noResolve = false)
    (hres : c.resolveBitPath a req.path = Except.ok (fp, st))
    (hfile : st.isDir = false)
    (hm : req.method = "GET")
    (hro : req.rangeHeader = none) :
    (fileGetCore c req a rh).1.statusCode = 200
  ∧ hget ((fileGetCore c req a rh).1.headers.getD []) "Content-Length" = some (toString st.size)
  ∧ (fileGetCore c req a rh).1.data = BodyData.stream fp none := by
  have hcore : ∃ rh2, fileGetCore c req a rh =
      (mkResp 200 (hset rh2 "Content-Length" (toString st.size)) (BodyData.stream fp none), a) := by
    unfold fileGetCore
    rw [if_neg (by simp [hnr]), hres]
    try dsimp only
    rw [if_neg (by simp [hfile]), hro]
    try dsimp only
    rw [if_neg (by simp [hm]), if_neg (by decide)]
    exact ⟨_, rfl⟩
  obtain ⟨rh2, hcore⟩ := hcore
  rw [hcore]
  dsimp only [mkResp, Option.getD]
  exact ⟨rfl, hget_hset_self _ _ _, rfl⟩

theorem fileGetCore_unparsed (c : Collab) (req : Request) (a : Archive) (rh : HeadersL)
    (fp : String) (st : Entry) (rv : String)
    (hnr : req.noResolve = false)
    (hres : c.resolveBitPath a req.path = Except.ok (fp, st))
    (hfile : st.isDir = false)
    (hm : req.method = "GET")
    (hro : req.rangeHeader = some rv) (hrv : rv.isEmpty = false)
    (hparse : c.parseRange st.size rv = RangeResult.unparsed) :
    (fileGetCore c req a rh).1.statusCode = 200
  ∧ hget ((fileGetCore c req a rh).1.headers.getD []) "Content-Length" = some (toString st.size)
  ∧ (fileGetCore c req a rh).1.data = BodyData.stream fp none := by
  have hcore : ∃ rh2, fileGetCore c req a rh =
      (mkResp 200 (hset rh2 "Content-Length" (toString st.size)) (BodyData.stream fp none), a) := by
    unfold fileGetCore
    rw [if_neg (by simp [hnr]), hres]
    try dsimp only
    rw [if_neg (by simp [hfile]), hro]
    try dsimp only
    rw [hrv]
    try dsimp only
    rw [if_neg (by simp [hm]), if_pos (by decide), Option.getD_some, hparse]
    exact ⟨_, rfl⟩
  obtain ⟨rh2, hcore⟩ := hcore
  rw [hcore]
  dsimp only [mkResp, Option.getD]
  exact ⟨rfl, hget_hset_self _ _ _, rfl⟩

theorem fileGetCore_emptyRanges (c : Collab) (req : Request) (a : Archive) (rh : HeadersL)
    (fp : String) (st : Entry) (rv t : String)
    (hnr : req.noResolve = false)
    (hres : c.resolveBitPath a req.path = Except.ok (fp, st))
    (hfile : st.isDir = false)
    (hm : req.method = "GET")
    (hro : req.rangeHeader = some rv) (hrv : rv.isEmpty = false)
    (hparse : c.parseRange st.size rv = RangeResult.parsed t []) :
    (fileGetCore c req a rh).1.statusCode = 200
  ∧ hget ((fileGetCore c req a rh).1.headers.getD []) "Content-Length" = some (toString st.size)
  ∧ (fileGetCore c req a rh).1.data = BodyData.stream fp none := by
  have hcore : ∃ rh2, fileGetCore c req a rh =
      (mkResp 200 (hset rh2 "Content-Length" (toString st.size)) (BodyData.stream fp none), a) := by
    unfold fileGetCore
    rw [if_neg (by simp [hnr]), hres]
    try dsimp only
    rw [if_neg (by simp [hfile]), hro]
    try dsimp only
    rw [hrv]
    try dsimp only
    rw [if_neg (by simp [hm]), if_pos (by decide), Option.getD_some, hparse]
    exact ⟨_, rfl⟩
  obtain ⟨rh2, hcore⟩ := hcore
  rw [hcore]
  dsimp only [mkResp, Option.getD]
  exact ⟨rfl, hget_hset_self _ _ _, rfl⟩

theorem fileGetCore_otherType (c : Collab) (req : Request) (a : Archive) (rh : HeadersL)
    (fp : String) (st : Entry) (rv t : String) (r0 : Nat × Nat) (rest : List (Nat × Nat))
    (hnr : req.noResolve = false)
    (hres : c.resolveBitPath a req.path = Except.ok (fp, st))
    (hfile : st.isDir = false)
    (hm : req.method = "GET")
    (hro : req.rangeHeader = some rv) (hrv : rv.isEmpty = false)
    (ht : ¬ t = "bytes")
    (hparse : c.parseRange st.size rv = RangeResult.parsed t (r0 :: rest)) :
    (fileGetCore c req a rh).1.statusCode = 200
  ∧ hget ((fileGetCore c req a rh).1.headers.getD []) "Content-Length" = some (toString st.size)
  ∧ (fileGetCore c req a rh).1.data = BodyData.stream fp none := by
  have hcore : ∃ rh2, fileGetCore c req a rh =
      (mkResp 200 (hset rh2 "Content-Length" (toString st.size)) (BodyData.stream fp none), a) := by
    unfold fileGetCore
    rw [if_neg (by simp [hnr]), hres]
    try dsimp only
    rw [if_neg (by simp [hfile]), hro]
    try dsimp only
    rw [hrv]
    try dsimp only
    rw [if_neg (by simp [hm]), if_pos (by decide), Option.getD_some, hparse]
    try dsimp only
    rw [if_neg ht]
    exact ⟨_, rfl⟩
  obtain ⟨rh2, hcore⟩ := hcore
  rw [hcore]
  dsimp only [mkResp, Option.getD]
  exact ⟨rfl, hget_hset_self _ _ _, rfl⟩

/-- C2: for every GET of a file of size `S` with a `Range` request header:
when the header parses as range type `bytes` with at least one range, the
response has status 206, `Content-Range: bytes start-end/S` and
`Content-Length` equal to `end - start + 1` (the ranged read stream's byte
count); when the `Range` header is absent, unparsable, parses to no ranges,
or parses to another range type, the full file stream is served with status
200. -/
theorem C2_range_requests (c : Collab) (w : Bool) (req : Request) (a : Archive)
    (fp : String) (st : Entry)
    (hm : req.method = "GET")
    (hslash : strStartsWith req.path "/" = true)
    (hsp : strStartsWith req.path SPECIAL_FOLDER = false)
    (hacc : ¬ req.accept = some "text/event-stream")
    (hxd : ¬ req.xDownload = some "cache")
    (hwk : ¬ req.path = "/.well-known/bit")
    (hnr : req.noResolve = false)
    (hres : c.resolveBitPath a req.path = Except.ok (fp, st))
    (hfile : st.isDir = false) :
    (∀ (rv : String) (s e : Nat) (rest : List (Nat × Nat)),
       req.rangeHeader = some rv → rv.isEmpty = false →
       c.parseRange st.size rv = RangeResult.parsed "bytes" ((s, e) :: rest) →
       (bitFetchArchive c w req a).1.statusCode = 206
         ∧ hget ((bitFetchArchive c w req a).1.headers.getD []) "Content-Range"
             = some ("bytes " ++ toString s ++ "-" ++ toString e ++ "/" ++ toString st.size)
         ∧ hget ((bitFetchArchive c w req a).1.headers.getD []) "Content-Length"
             = some (toString (e - s + 1))
         ∧ (bitFetchArchive c w req a).1.data = BodyData.stream fp (some (s, e))
         ∧ rangeLength (s, e) = e - s + 1)
  ∧ (req.rangeHeader = none →
       (bitFetchArchive c w req a).1.statusCode = 200
         ∧ hget ((bitFetchArchive c w req a).1.headers.getD []) "Content-Length"
             = some (toString st.size)
         ∧ (bitFetchArchive c w req a).1.data = BodyData.stream fp none)
  ∧ (∀ (rv : String),
       req.rangeHeader = some rv → rv.isEmpty = false →
       c.parseRange st.size rv = RangeResult.unparsed →
       (bitFetchArchive c w req a).1.statusCode = 200
         ∧ hget ((bitFetchArchive c w req a).1.headers.getD []) "Content-Length"
             = some (toString st.size)
         ∧ (bitFetchArchive c w req a).1.data = BodyData.stream fp none)
  ∧ (∀ (rv t : String),
       req.rangeHeader = some rv → rv.isEmpty = false →
       c.parseRange st.size rv = RangeResult.parsed t [] →
       (bitFetchArchive c w req a).1.statusCode = 200
         ∧ hget ((bitFetchArchive c w req a).1.headers.getD []) "Content-Length"
             = some (toString st.size)
         ∧ (bitFetchArchive c w req a).1.data = BodyData.stream fp none)
  ∧ (∀ (rv t : String) (r0 : Nat × Nat) (rest : List (Nat × Nat)),
       req.rangeHeader = some rv → rv.isEmpty = false → ¬ t = "bytes" →
       c.parseRange st.size rv = RangeResult.parsed t (r0 :: rest) →
       (bitFetchArchive c w req a).1.statusCode = 200
         ∧ hget ((bitFetchArchive c w req a).1.headers.getD []) "Content-Length"
             = some (toString st.size)
         ∧ (bitFetchArchive c w req a).1.data = BodyData.stream fp none) := by
  have hcg := bitFetch_get_core c w req a hm hslash hsp hacc hxd hwk
  rw [hcg]
  refine ⟨?_, ?_, ?_, ?_, ?_⟩
  · intro rv s e rest hro hrv hparse
    have h := fileGetCore_range_bytes c req a (archiveHeaders baseHeaders0 w a req.path) fp st s e rest rv hnr hres hfile hm hro hrv hparse
    exact ⟨h.1, h.2.1, h.2.2.1, h.2.2.2, rfl⟩
  · intro hro
    exact fileGetCore_norange c req a (archiveHeaders baseHeaders0 w a req.path) fp st hnr hres hfile hm hro
  · intro rv hro hrv hparse
    exact fileGetCore_unparsed c req a (archiveHeaders baseHeaders0 w a req.path) fp st rv hnr hres hfile hm hro hrv hparse
  · intro rv t hro hrv hparse
    exact fileGetCore_emptyRanges c req a (archiveHeaders baseHeaders0 w a req.path) fp st rv t hnr hres hfile hm hro hrv hparse
  · intro rv t r0 rest hro hrv ht hparse
    exact fileGetCore_otherType c req a (archiveHeaders baseHeaders0 w a req.path) fp st rv t r0 rest hnr hres hfile hm hro hrv ht hparse

/-- C2 witness: `GET /file.txt` with `Range: bytes=0-49` on the 100-byte
sample file yields 206, `Content-Range: bytes 0-49/100`, `Content-Length:
50`. -/
theorem C2_range_witness :
    (bitFetchArchive sampleCollab false (mkGetReq "/file.txt" none (some "bytes=0-49"))
        sampleArchive).1.statusCode = 206
  ∧ hget ((bitFetchArchive sampleCollab false (mkGetReq "/file.txt" none (some "bytes=0-49"))
        sampleArchive).1.headers.getD []) "Content-Range" = some "bytes 0-49/100"
  ∧ hget ((bitFetchArchive sampleCollab false (mkGetReq "/file.txt" none (some "bytes=0-49"))
        sampleArchive).1.headers.getD []) "Content-Length" = some "50" := by
  have h := (C2_range_requests sampleCollab false (mkGetReq "/file.txt" none (some "bytes=0-49"))
      sampleArchive "/file.txt" sampleFile rfl (by decide) (by decide) (by decide) (by decide)
      (by decide) rfl rfl rfl).1 "bytes=0-49" 0 49 [] rfl rfl rfl
  exact ⟨h.1, h.2.1, h.2.2.1⟩
/-- C3: tag round-trip.  A PUT to `/$/tags/T` on a writable archive at
version `V` answers 200 with `V` as plain text; a subsequent GET of
`/$/tags/T` answers 200 with that same `V`; after a DELETE of `/$/tags/T`, a
subsequent GET answers 404 `Tag Not Found` (the tag-lookup miss is caught
locally rather than escalated to the top-level catch). -/
theorem C3_tag_roundtrip (c : Collab) (a : Archive) (p T b : String)
    (hwrit : a.writable = true)
    (hslash : strStartsWith p "/" = true)
    (hsp : strStartsWith p SPECIAL_FOLDER = true)
    (hroot : ¬ p = SPECIAL_FOLDER)
    (htags : strStartsWith p TAGS_FOLDER = true)
    (hne : ¬ p = TAGS_FOLDER)
    (hT : strDrop p TAGS_FOLDER.length = T)
    (hTne : ¬ T = "") :
    ((bitFetchArchive c true (mkWriteReq "PUT" p b) a).1.statusCode = 200
      ∧ (bitFetchArchive c true (mkWriteReq "PUT" p b) a).1.data
          = BodyData.text (toString a.version))
  ∧ ((bitFetchArchive c true (mkGetReq p none none)
        (bitFetchArchive c true (mkWriteReq "PUT" p b) a).2).1.statusCode = 200
      ∧ (bitFetchArchive c true (mkGetReq p none none)
          (bitFetchArchive c true (mkWriteReq "PUT" p b) a).2).1.data
          = BodyData.text (toString a.version))
  ∧ ((bitFetchArchive c true (mkWriteReq "DELETE" p "")
        (bitFetchArchive c true (mkWriteReq "PUT" p b) a).2).1.statusCode = 200
      ∧ (bitFetchArchive c true (mkGetReq p none none)
          (bitFetchArchive c true (mkWriteReq "DELETE" p "")
            (bitFetchArchive c true (mkWriteReq "PUT" p b) a).2).2).1.statusCode = 404
      ∧ (bitFetchArchive c true (mkGetReq p none none)
          (bitFetchArchive c true (mkWriteReq "DELETE" p "")
            (bitFetchArchive c true (mkWriteReq "PUT" p b) a).2).2).1.data
          = BodyData.text "Tag Not Found") := by
  have hput : bitFetchArchive c true (mkWriteReq "PUT" p b) a
      = (mkResp 200
          (hset (hset (archiveHeaders baseHeaders0 true a p) "Content-Type"
            "text/plain; charset=utf-8") "ETag" (quoteVersion (a.version + 1)))
          (BodyData.text (toString a.version)),
         Archive.createTag a T a.version) := by
    rw [bitFetchArchive_eq c true (mkWriteReq "PUT" p b) a hslash,
      dispatch_tags fileHandler c true (mkWriteReq "PUT" p b) a _ hsp hroot htags,
      tagsPut_result true (mkWriteReq "PUT" p b) a _ rfl rfl hwrit]
    have hT2 : strDrop (mkWriteReq "PUT" p b).path TAGS_FOLDER.length = T := hT
    rw [hT2]
    rfl
  have ha1w : (Archive.createTag a T a.version).writable = true := by
    simp [Archive.createTag, hwrit]
  have ha1l : tagLookup (Archive.createTag a T a.version).tags T = some a.version := by
    simp [Archive.createTag, tagLookup_tagSet_self]
  have hget1 : bitFetchArchive c true (mkGetReq p none none) (Archive.createTag a T a.version)
      = (mkResp 200
          (archiveHeaders baseHeaders0 true (Archive.createTag a T a.version) p)
          (BodyData.text (toString a.version)),
         Archive.createTag a T a.version) := by
    rw [bitFetchArchive_eq c true (mkGetReq p none none) _ hslash,
      dispatch_tags fileHandler c true (mkGetReq p none none) _ _ hsp hroot htags,
      tagsGet_found true (mkGetReq p none none) (Archive.createTag a T a.version) _ rfl hne
        T hT a.version ha1l]
    rfl
  have hdel : bitFetchArchive c true (mkWriteReq "DELETE" p "") (Archive.createTag a T a.version)
      = (mkResp 200
          (hset (archiveHeaders baseHeaders0 true (Archive.createTag a T a.version) p) "ETag"
            (quoteVersion ((Archive.createTag a T a.version).version + 1)))
          (BodyData.text ""),
         { Archive.createTag a T a.version with
            tags := tagRemove (Archive.createTag a T a.version).tags T,
            version := (Archive.createTag a T a.version).version + 1 }) := by
    rw [bitFetchArchive_eq c true (mkWriteReq "DELETE" p "") _ hslash,
      dispatch_tags fileHandler c true (mkWriteReq "DELETE" p "") _ _ hsp hroot htags,
      tagsDelete_result true (mkWriteReq "DELETE" p "") (Archive.createTag a T a.version) _
        rfl rfl ha1w T hT hTne a.version ha1l]
    rfl
  have ha2l : tagLookup ({ Archive.createTag a T a.version with
      tags := tagRemove (Archive.createTag a T a.version).tags T,
      version := (Archive.createTag a T a.version).version + 1 } : Archive).tags T = none := by
    simp [tagLookup_tagRemove_self]
  have hget2 : bitFetchArchive c true (mkGetReq p none none)
      ({ Archive.createTag a T a.version with
          tags := tagRemove (Archive.createTag a T a.version).tags T,
          version := (Archive.createTag a T a.version).version + 1 } : Archive)
      = (mkResp 404
          (archiveHeaders baseHeaders0 true
            ({ Archive.createTag a T a.version with
                tags := tagRemove (Archive.createTag a T a.version).tags T,
                version := (Archive.createTag a T a.version).version + 1 } : Archive) p)
          (BodyData.text "Tag Not Found"),
         ({ Archive.createTag a T a.version with
             tags := tagRemove (Archive.createTag a T a.version).tags T,
             version := (Archive.createTag a T a.version).version + 1 } : Archive)) := by
    rw [bitFetchArchive_eq c true (mkGetReq p none none) _ hslash,
      dispatch_tags fileHandler c true (mkGetReq p none none) _ _ hsp hroot htags,
      tagsGet_missing true (mkGetReq p none none) _ _ rfl hne T hT ha2l]
    rfl
  rw [hput]
  refine ⟨⟨rfl, rfl⟩, ?_, ?_⟩
  · rw [hget1]
    exact ⟨rfl, rfl⟩
  · rw [hdel]
    dsimp only
    rw [hget2]
    exact ⟨rfl, rfl, rfl⟩

/-- C3 witness: the round-trip on the concrete tag `v1` of the writable
sample archive at version 5. -/
theorem C3_tag_witness :
    (bitFetchArchive sampleCollab true (mkWriteReq "PUT" "/$/tags/v1" "") sampleArchive).1.data
      = BodyData.text "5"
  ∧ (bitFetchArchive sampleCollab true (mkGetReq "/$/tags/v1" none none)
      (bitFetchArchive sampleCollab true (mkWriteReq "PUT" "/$/tags/v1" "") sampleArchive).2).1.data
      = BodyData.text "5"
  ∧ (bitFetchArchive sampleCollab true (mkGetReq "/$/tags/v1" none none)
      (bitFetchArchive sampleCollab true (mkWriteReq "DELETE" "/$/tags/v1" "")
        (bitFetchArchive sampleCollab true (mkWriteReq "PUT" "/$/tags/v1" "")
          sampleArchive).2).2).1.statusCode = 404 := by
  have h := C3_tag_roundtrip sampleCollab sampleArchive "/$/tags/v1" "v1" "" rfl (by decide)
    (by decide) (by decide) (by decide) (by decide) (by decide) (by decide)
  exact ⟨h.1.2, h.2.1.2, h.2.2.2.1⟩
theorem bitFetchArchive_catch_nw (c : Collab) (w : Bool) (req : Request) (a : Archive)
    (hslash : strStartsWith req.path "/" = true)
    (hd : dispatchWith fileHandler c w req a (archiveHeaders baseHeaders0 w a req.path)
        = Except.error NOT_WRITABLE_ERROR) :
    (bitFetchArchive c w req a).1.statusCode = 403
  ∧ (bitFetchArchive c w req a).1.statusText = some "Not Authorized" := by
  rw [bitFetchArchive_eq c w req a hslash, hd]
  dsimp only [catchResponse]
  constructor <;> simp

/-- C4: every write operation — file PUT, plain file DELETE (no `x-clear:
cache`), tag PUT, tag DELETE — issued when the global writable option is
false or the archive handle is not writable answers 403 `Not Authorized`,
for every collaborator, request shape, headers and body. -/
theorem C4_not_writable_403 :
    (∀ (c : Collab) (w : Bool) (req : Request) (a : Archive),
      req.method = "PUT" →
      strStartsWith req.path "/" = true →
      strStartsWith req.path SPECIAL_FOLDER = false →
      (w = false ∨ a.writable = false) →
      (bitFetchArchive c w req a).1.statusCode = 403
        ∧ (bitFetchArchive c w req a).1.statusText = some "Not Authorized")
  ∧ (∀ (c : Collab) (w : Bool) (req : Request) (a : Archive),
      req.method = "DELETE" →
      strStartsWith req.path "/" = true →
      strStartsWith req.path SPECIAL_FOLDER = false →
      ¬ req.xClear = some "cache" →
      (w = false ∨ a.writable = false) →
      (bitFetchArchive c w req a).1.statusCode = 403
        ∧ (bitFetchArchive c w req a).1.statusText = some "Not Authorized")
  ∧ (∀ (c : Collab) (w : Bool) (req : Request) (a : Archive),
      req.method = "PUT" →
      strStartsWith req.path "/" = true →
      strStartsWith req.path SPECIAL_FOLDER = true →
      ¬ req.path = SPECIAL_FOLDER →
      strStartsWith req.path TAGS_FOLDER = true →
      (w = false ∨ a.writable = false) →
      (bitFetchArchive c w req a).1.statusCode = 403
        ∧ (bitFetchArchive c w req a).1.statusText = some "Not Authorized")
  ∧ (∀ (c : Collab) (w : Bool) (req : Request) (a : Archive),
      req.method = "DELETE" →
      strStartsWith req.path "/" = true →
      strStartsWith req.path SPECIAL_FOLDER = true →
      ¬ req.path = SPECIAL_FOLDER →
      strStartsWith req.path TAGS_FOLDER = true →
      (w = false ∨ a.writable = false) →
      (bitFetchArchive c w req a).1.statusCode = 403
        ∧ (bitFetchArchive c w req a).1.statusText = some "Not Authorized") := by
  refine ⟨?_, ?_, ?_, ?_⟩
  · intro c w req a hm hslash hsp hnw
    refine bitFetchArchive_catch_nw c w req a hslash ?_
    rw [dispatch_file fileHandler c w req a _ hsp]
    unfold fileHandler
    rw [if_pos hm]
    unfold filePut
    rw [checkWritable_err w a hnw]
  · intro c w req a hm hslash hsp hxc hnw
    refine bitFetchArchive_catch_nw c w req a hslash ?_
    rw [dispatch_file fileHandler c w req a _ hsp]
    unfold fileHandler
    rw [if_neg (by simp [hm]), if_pos hm]
    unfold fileDelete
    rw [if_neg hxc, checkWritable_err w a hnw]
  · intro c w req a hm hslash hsp hroot htags hnw
    refine bitFetchArchive_catch_nw c w req a hslash ?_
    rw [dispatch_tags fileHandler c w req a _ hsp hroot htags]
    unfold tagsHandler
    rw [hm]
    rw [if_neg (by decide), if_neg (by decide), if_pos (by decide),
      checkWritable_err w a hnw]
  · intro c w req a hm hslash hsp hroot htags hnw
    refine bitFetchArchive_catch_nw c w req a hslash ?_
    rw [dispatch_tags fileHandler c w req a _ hsp hroot htags]
    unfold tagsHandler
    rw [hm]
    rw [if_neg (by decide), if_pos (by decide), checkWritable_err w a hnw]

/-- C4 witness: a file PUT with the global option off, and a tag DELETE on a
read-only archive handle. -/
theorem C4_not_writable_witness :
    (bitFetchArchive sampleCollab false (mkWriteReq "PUT" "/file.txt" "x") sampleArchive).1.statusCode = 403
  ∧ (bitFetchArchive sampleCollab true (mkWriteReq "DELETE" "/$/tags/old" "")
      { sampleArchive with writable := false }).1.statusCode = 403 := by
  constructor
  · exact (C4_not_writable_403.1 sampleCollab false (mkWriteReq "PUT" "/file.txt" "x")
      sampleArchive rfl (by decide) (by decide) (Or.inl rfl)).1
  · exact (C4_not_writable_403.2.2.2 sampleCollab true (mkWriteReq "DELETE" "/$/tags/old" "")
      { sampleArchive with writable := false } rfl (by decide) (by decide) (by decide) (by decide)
      (Or.inr rfl)).1
/-- C5: the dispatcher never lets an exception escape — the embedding is a
total function into responses.  An unresolvable archive key produces a
404 response with an explanatory body; an exception in the effectful prelude
or anywhere in the dispatch body is caught once at the top and converted to
403 exactly for the not-writable error message and 500 otherwise, with the
error text as body. -/
theorem C5_errors_to_responses :
    (∀ (c : Collab) (w : Bool) (req : Request),
      (bitFetch c w req (Except.ok none)).1.statusCode = 404
        ∧ (bitFetch c w req (Except.ok none)).1.data = BodyData.text "Unknown drive")
  ∧ (∀ (c : Collab) (w : Bool) (req : Request) (e : String),
      (bitFetch c w req (Except.error e)).1.statusCode
          = (if e = NOT_WRITABLE_ERROR then 403 else 500)
        ∧ (bitFetch c w req (Except.error e)).1.statusText
          = some (if e = NOT_WRITABLE_ERROR then "Not Authorized" else "Server Error")
        ∧ (bitFetch c w req (Except.error e)).1.data = BodyData.text e)
  ∧ (∀ (c : Collab) (w : Bool) (req : Request) (a : Archive) (e : String),
      dispatchWith fileHandler c w { req with path := normalizePath req.path } a
          (archiveHeaders baseHeaders0 w a (normalizePath req.path)) = Except.error e →
      (bitFetchArchive c w req a).1.statusCode = (if e = NOT_WRITABLE_ERROR then 403 else 500)
        ∧ (bitFetchArchive c w req a).1.statusText
          = some (if e = NOT_WRITABLE_ERROR then "Not Authorized" else "Server Error")
        ∧ (bitFetchArchive c w req a).1.data = BodyData.text e) := by
  refine ⟨?_, ?_, ?_⟩
  · intro c w req
    exact ⟨rfl, rfl⟩
  · intro c w req e
    dsimp only [bitFetch, catchResponse]
    exact ⟨rfl, rfl, rfl⟩
  · intro c w req a e hd
    unfold bitFetchArchive bitFetchArchiveWith
    dsimp only
    rw [hd]
    dsimp only [catchResponse]
    exact ⟨rfl, rfl, rfl⟩

/-- C5 witness: the catch conversion applied to a concrete failing dispatch —
a plain DELETE of a path with no entry, whose `archive.stat` throws
`ENOENT`, yielding a 500 response carrying the error text. -/
theorem C5_errors_witness :
    (bitFetchArchive sampleCollab true (mkWriteReq "DELETE" "/nope" "") sampleArchive).1.statusCode = 500
  ∧ (bitFetchArchive sampleCollab true (mkWriteReq "DELETE" "/nope" "")
      sampleArchive).1.data = BodyData.text "ENOENT: /nope" := by
  have h := C5_errors_to_responses.2.2 sampleCollab true (mkWriteReq "DELETE" "/nope" "")
    sampleArchive "ENOENT: /nope" rfl
  refine ⟨?_, h.2.2⟩
  rw [h.1]
  decide
/-- C6: evaluation of the change/download/upload stream at a content-feed
upload of block 5.  The registered listener on the content feed's `upload`
event is `onUploadMetadata` (source line 479), and every upload handler sets
`const event = 'download'` (source lines 454-459 and 467-472), so the
emitted event is named `download` and carries the metadata feed's key as
`source` — not an `upload` event with the content feed's key as the claim
states.  A metadata-feed upload is likewise emitted as `download`. -/
theorem C6_upload_event_eval :
    emitFeedEvent fileStreamAttach Feed.content "upload" 5 "m00" "c00"
      = [{ event := "download", index := 5, source := "m00" }]
  ∧ emitFeedEvent fileStreamAttach Feed.metadata "upload" 7 "m00" "c00"
      = [{ event := "download", index := 7, source := "m00" }]
  ∧ frameEvent { event := "download", index := 5, source := "m00" }
      = "event:download\ndata:\x7b\"index\":5,\"source\":\"m00\"\x7d\n\n" := by
  refine ⟨rfl, rfl, rfl⟩

/-- C7: evaluation of the two stream teardowns.  The extension event stream
removes exactly the three listeners it attached, but the
change/download/upload stream's teardown calls `removeListener` with
`onUploadContent` on the content feed's `upload` event (source line 485)
while the listener actually attached there was `onUploadMetadata` (source
line 479): after teardown that listener is still registered, so the teardown
does not remove exactly the set of listeners attached at start. -/
theorem C7_teardown_eval :
    fileStreamTeardown fileStreamAttach
      = [(Feed.content, "upload", FileStreamHandler.onUploadMetadata)]
  ∧ extensionStreamTeardown extensionStreamAttach = ([] : ArchiveListeners) := by
  refine ⟨rfl, rfl⟩

/-- C8: evaluation of the non-streaming GET on a specific extension channel.
The branch (source line 360) writes the header object under the key `header`
instead of `headers`: the response's `headers` field is absent even though
the request succeeded (status 200) and the full baseline — CORS, `Link`,
`Allow`, quoted `ETag` — was computed and sits under the misspelled field. -/
theorem C8_header_field_eval :
    (bitFetchArchive sampleCollab false (mkGetReq "/$/extensions/example" none none)
        sampleArchive).1.statusCode = 200
  ∧ (bitFetchArchive sampleCollab false (mkGetReq "/$/extensions/example" none none)
        sampleArchive).1.headers = none
  ∧ hget ((bitFetchArchive sampleCollab false (mkGetReq "/$/extensions/example" none none)
        sampleArchive).1.header.getD []) "ETag" = some "\"5\""
  ∧ hget ((bitFetchArchive sampleCollab false (mkGetReq "/$/extensions/example" none none)
        sampleArchive).1.header.getD []) "Access-Control-Allow-Origin" = some "*"
  ∧ hget ((bitFetchArchive sampleCollab false (mkGetReq "/$/extensions/example" none none)
        sampleArchive).1.header.getD []) "Allow" = some "GET, HEAD" := by
  refine ⟨rfl, rfl, rfl, rfl, rfl⟩
theorem fileGetHead_eq_single (c : Collab) (req : Request) (a : Archive) (rh : HeadersL) :
    fileGetHead c req a rh = fileGetHeadSingle c req a rh := by
  unfold fileGetHead fileGetHeadSingle
  by_cases h1 : req.method = "GET" ∧ req.accept = some "text/event-stream"
  · rw [if_pos h1, if_pos h1]
  · rw [if_neg h1, if_neg h1]
    by_cases h2 : req.path = "/.well-known/bit"
    · simp only [h2, if_true, if_pos]
    · simp only [h2, if_false, if_neg, not_false_iff]

theorem fileHandler_eq_single (c : Collab) (w : Bool) (req : Request) (a : Archive)
    (rh : HeadersL) : fileHandler c w req a rh = fileHandlerSingle c w req a rh := by
  unfold fileHandler fileHandlerSingle
  rw [fileGetHead_eq_single]

theorem dispatch_eq_single (c : Collab) (w : Bool) (req : Request) (a : Archive) (rh : HeadersL) :
    dispatchWith fileHandler c w req a rh = dispatchWith fileHandlerSingle c w req a rh := by
  unfold dispatchWith extensionsHandler
  simp only [fileHandler_eq_single]

/-- C9: the two `.well-known` discovery branches (source lines 510-530)
guard the identical path `/.well-known/bit` and return the identical
two-line record with status 200, so the second branch is unreachable: the
dispatcher with the second branch removed (`bitFetchSingle`, built from
`fileGetHeadSingle`) is observably equal to the dispatcher as written, on
every collaborator, writability flag, request and load outcome. -/
theorem C9_wellknown_dedup :
    ∀ (c : Collab) (w : Bool) (req : Request) (load : Except String (Option Archive)),
      bitFetch c w req load = bitFetchSingle c w req load := by
  intro c w req load
  unfold bitFetch bitFetchSingle bitFetchArchive bitFetchArchiveSingle bitFetchArchiveWith
  cases load with
  | error e => rfl
  | ok oa =>
    cases oa with
    | none => rfl
    | some a => simp only [dispatch_eq_single]
theorem fileGetCore_resolve_error (c : Collab) (req : Request) (a : Archive) (rh : HeadersL)
    (msg : String)
    (hnr : req.noResolve = false)
    (hres : c.resolveBitPath a req.path = Except.error msg) :
    fileGetCore c req a rh
      = (mkResp 404 (hset rh "Content-Type" "text/plain; charset=utf-8") (BodyData.text msg), a) := by
  unfold fileGetCore
  rw [if_neg (by simp [hnr]), hres]

/-- C10 (implicit): a GET on a specific extension channel path whose
`Accept` header contains `text/event-stream` is not answered by the
Extension Bridge — the branch produces no response and control falls through
to the ordinary file-path GET handling.  When `Accept` equals
`text/event-stream` exactly this serves the change-event stream for the
path; otherwise the path undergoes ordinary resolution, which answers 404
when the resolver cannot resolve the extension path. -/
theorem C10_extension_stream_fallthrough (c : Collab) (w : Bool) (a : Archive) (req : Request)
    (acc : String)
    (hm : req.method = "GET")
    (hslash : strStartsWith req.path "/" = true)
    (hsp : strStartsWith req.path SPECIAL_FOLDER = true)
    (hroot : ¬ req.path = SPECIAL_FOLDER)
    (htags : strStartsWith req.path TAGS_FOLDER = false)
    (hext : strStartsWith req.path EXTENSIONS_FOLDER = true)
    (hne : ¬ req.path = EXTENSIONS_FOLDER)
    (hacc : req.accept = some acc)
    (hinc : strIncludes acc "text/event-stream" = true) :
    (∀ rh, dispatchWith fileHandler c w req a rh = fileHandler c w req a rh)
  ∧ (acc = "text/event-stream" →
      (bitFetchArchive c w req a).1.statusCode = 200
        ∧ (bitFetchArchive c w req a).1.data = BodyData.changeEvents req.path
        ∧ hget ((bitFetchArchive c w req a).1.headers.getD []) "Content-Type"
            = some "text/event-stream")
  ∧ (¬ acc = "text/event-stream" →
      req.noResolve = false → ¬ req.xDownload = some "cache" →
      ¬ req.path = "/.well-known/bit" →
      ∀ msg, c.resolveBitPath a req.path = Except.error msg →
      (bitFetchArchive c w req a).1.statusCode = 404
        ∧ (bitFetchArchive c w req a).1.data = BodyData.text msg) := by
  have hfall : ∀ rh, dispatchWith fileHandler c w req a rh = fileHandler c w req a rh := by
    intro rh
    unfold dispatchWith
    rw [if_pos hsp, if_neg hroot, if_neg (by simp [htags]), if_pos hext]
    unfold extensionsHandler
    rw [if_neg hne]
    dsimp only
    rw [if_neg (by simp [hm]), if_pos hm, hacc, Option.getD_some,
      if_neg (by simp [hinc])]
  refine ⟨hfall, ?_, ?_⟩
  · intro heq
    have hstream : bitFetchArchive c w req a
        = (mkResp 200 (hset (archiveHeaders baseHeaders0 w a req.path) "Content-Type"
            "text/event-stream") (BodyData.changeEvents req.path), a) := by
      rw [bitFetchArchive_eq c w req a hslash, hfall]
      unfold fileHandler
      rw [if_neg (by simp [hm]), if_neg (by simp [hm]), if_pos (Or.inl hm)]
      unfold fileGetHead
      rw [if_pos ⟨hm, by rw [hacc, heq]⟩]
    rw [hstream]
    exact ⟨rfl, rfl, hget_hset_self _ _ _⟩
  · intro hneq hnr hxd hwk msg hres
    have h404 : bitFetchArchive c w req a
        = (mkResp 404 (hset (archiveHeaders baseHeaders0 w a req.path) "Content-Type"
            "text/plain; charset=utf-8") (BodyData.text msg), a) := by
      rw [bitFetchArchive_eq c w req a hslash, hfall]
      unfold fileHandler
      rw [if_neg (by simp [hm]), if_neg (by simp [hm]), if_pos (Or.inl hm)]
      unfold fileGetHead
      rw [if_neg (fun hand => hneq (Option.some.inj (hacc.symm.trans hand.2)))]
      dsimp only
      rw [if_neg hxd, if_neg hwk, if_neg hwk]
      exact fileGetCore_resolve_error c req a _ msg hnr hres
    rw [h404]
    exact ⟨rfl, rfl⟩

/-- C10 witness: `GET /$/extensions/myext` with `Accept: text/event-stream`
is served as the change-event stream for that path (not by the Extension
Bridge), and with `Accept: text/event-stream, text/html` it undergoes path
resolution and answers 404 on the sample archive. -/
theorem C10_extension_stream_witness :
    ((bitFetchArchive sampleCollab false
        (mkGetReq "/$/extensions/myext" (some "text/event-stream") none) sampleArchive).1.statusCode = 200
      ∧ (bitFetchArchive sampleCollab false
          (mkGetReq "/$/extensions/myext" (some "text/event-stream") none) sampleArchive).1.data
          = BodyData.changeEvents "/$/extensions/myext")
  ∧ (bitFetchArchive sampleCollab false
      (mkGetReq "/$/extensions/myext" (some "text/event-stream, text/html") none)
      sampleArchive).1.statusCode = 404 := by
  constructor
  · have h := (C10_extension_stream_fallthrough sampleCollab false sampleArchive
      (mkGetReq "/$/extensions/myext" (some "text/event-stream") none) "text/event-stream"
      rfl (by decide) (by decide) (by decide) (by decide) (by decide) (by decide) rfl
      (by decide)).2.1 rfl
    exact ⟨h.1, h.2.1⟩
  · exact ((C10_extension_stream_fallthrough sampleCollab false sampleArchive
      (mkGetReq "/$/extensions/myext" (some "text/event-stream, text/html") none)
      "text/event-stream, text/html"
      rfl (by decide) (by decide) (by decide) (by decide) (by decide) (by decide) rfl
      (by decide)).2.2 (by decide) rfl (by decide) (by decide)
      "ENOENT: /$/extensions/myext" rfl).1
